import Mathlib

/-!
Shallow embedding of the PCC compiler front end (src/src/parser.c) and the
parts of its environment that the repository does not ship under src/
(lexer token access, AST constructors, the dynamic array helpers), which are
modelled from the design document.  Machine integers that matter to the
claims (line/column numbers, allocation counters, the OutputSpec format tag)
are modelled as `Nat`; C pointers that may be NULL are modelled as `Option`.

Allocation is modelled by an oracle carried in the parser session: a list of
allocation indices that fail, together with a running counter.  Each call of
`malloc` in the C source (one per error record, one per AST node, one per
dynamic-array creation) consumes one counter tick.  `pcc_strdup` and
`pcc_array_push` are modelled as never failing (the design document specifies
growable sequences with O(1) amortized append and leaves their failure
behaviour out of every claim).

The parser itself is a fuel-indexed interpreter `run` over a call descriptor
type: this makes the whole mutually recursive C parser one structurally
recursive Lean function, so concrete runs evaluate by `rfl`, and a run that
exhausts every fuel bound (`PR.div` for all fuel) witnesses non-termination
of the corresponding C loop.
-/

/-- Token kinds of the PCC language, from the design document's token model
and the `TOKEN_*` constants used by src/src/parser.c.  `IN_OP` is the
distinct tag the parser stores for the `IN` constraint operator. -/
inductive TokenType where
  | EOF | PROMPT | VAR | TEMPLATE | CONSTRAINT | OUTPUT
  | IF | ELSE | FOR | WHILE | IN | AS | AND | OR | NOT | TRUE | FALSE
  | IDENTIFIER | STRING | RAW | NUMBER | VARIABLE_REF | TEMPLATE_CALL
  | LBRACE | RBRACE | LPAREN | RPAREN | COMMA | SEMICOLON | ASSIGN
  | EQ | NE | LT | GT | LE | GE | ADD | SUB | MUL | DIV | MOD | POW
  | IN_OP
  deriving DecidableEq, Repr

/-- Source position (`PCCPosition`): line, column, file name. -/
structure PCCPosition where
  line : Nat
  column : Nat
  filename : String
  deriving DecidableEq, Repr

/-- A token: kind, lexeme, literal value (the C union `value` is modelled by
two fields, the one not used by the kind is ignored), and position. -/
structure Token where
  type : TokenType
  lexeme : String
  stringVal : String
  numberVal : Int
  position : PCCPosition
  deriving DecidableEq, Repr

/-- A recorded parse error (`ParseError`): message and position. -/
structure ParseError where
  message : String
  position : PCCPosition
  deriving DecidableEq, Repr

/-- Allocation oracle: `failSet` lists the allocation indices at which
`malloc` returns NULL; `count` is the index of the next allocation. -/
structure AllocState where
  failSet : List Nat
  count : Nat
  deriving DecidableEq, Repr

/-- One `malloc` call: succeeds unless the current allocation index is in
the failure set; always advances the counter. -/
def mallocOk (a : AllocState) : Bool × AllocState :=
  (!(a.failSet.contains a.count), { a with count := a.count + 1 })

/-- The AST node model (`ASTNode`), one constructor per node kind created by
src/src/parser.c.  Child pointers that the C code may pass as NULL are
`Option`; children the C code checks before the constructor call are plain.
`program` takes no position, mirroring the call `ast_program_create(statements)`. -/
inductive ASTNode where
  | program (statements : List ASTNode)
  | promptDef (name : String) (body : Option ASTNode) (pos : PCCPosition)
  | varDecl (name : String) (initializer : ASTNode) (pos : PCCPosition)
  | templateDef (name : String) (parameters : List String) (body : Option ASTNode) (pos : PCCPosition)
  | constraintDef (name : String) (constraints : List ASTNode) (pos : PCCPosition)
  | constraintExpr (varName : String) (opType : TokenType) (value : ASTNode) (pos : PCCPosition)
  | outputSpec (name : String) (format : Nat) (pos : PCCPosition)
  | elementList (elements : List ASTNode) (pos : PCCPosition)
  | textElement (text : String) (isRaw : Nat) (pos : PCCPosition)
  | variableRef (name : String) (pos : PCCPosition)
  | functionCall (name : String) (arguments : List ASTNode) (pos : PCCPosition)
  | ifStmt (condition : ASTNode) (thenBody : Option ASTNode) (elseBody : Option ASTNode) (pos : PCCPosition)
  | forStmt (loopVar : String) (iterable : ASTNode) (body : Option ASTNode) (pos : PCCPosition)
  | whileStmt (condition : ASTNode) (body : Option ASTNode) (pos : PCCPosition)
  | binaryExpr (op : TokenType) (left : Option ASTNode) (right : Option ASTNode) (pos : PCCPosition)
  | unaryExpr (op : TokenType) (operand : Option ASTNode) (pos : PCCPosition)
  | identifier (name : String) (pos : PCCPosition)
  | stringLiteral (value : String) (pos : PCCPosition)
  | numberLiteral (value : Int) (pos : PCCPosition)
  | booleanLiteral (value : Nat) (pos : PCCPosition)
  deriving Repr

/-- The parser session (`Parser`): the lexer's token sequence, the cursor,
the append-only error list and the allocation oracle. -/
structure Parser where
  tokens : List Token
  current : Nat
  errors : List ParseError
  alloc : AllocState
  deriving Repr

/-- Modelled from the spec: lexer.c is not under src/.  Per the design
document, tokens already produced are addressable by index without mutating
lexer state; `lexer_get_token` is that indexed access. -/
def lexer_get_token (tokens : List Token) (index : Nat) : Option Token :=
  tokens.get? index

/-- Modelled from the spec: `pcc_strdup` copies a C string; copying is
identity on the modelled `String` and, per §4.2 of the design document, its
failure is not part of any claim, so it is modelled as never failing. -/
def pcc_strdup (s : String) : String := s

def parser_peek (p : Parser) (offset : Nat) : Option Token :=
  lexer_get_token p.tokens (p.current + offset)

def parser_current (p : Parser) : Option Token :=
  parser_peek p 0

/-- `parser_advance`: returns the current token and bumps the cursor unless
the current token is the end-of-input marker (or there is no current token). -/
def parser_advance (p : Parser) : Option Token × Parser :=
  match parser_current p with
  | none => (none, p)
  | some t =>
    if t.type ≠ .EOF then (some t, { p with current := p.current + 1 })
    else (some t, p)

def parser_check (p : Parser) (ty : TokenType) : Bool :=
  match parser_current p with
  | some t => t.type = ty
  | none => false

def parser_match (p : Parser) (ty : TokenType) : Bool × Parser :=
  if parser_check p ty then
    let r := parser_advance p
    (true, r.2)
  else (false, p)

/-- `parser_error`: allocates an error record; on allocation failure it
returns with no record appended (the C code is `if (error == NULL) return;`).
Otherwise it appends message plus the current token's position (or the
`0:0 <unknown>` placeholder when there is no current token). -/
def parser_error (p : Parser) (message : String) : Parser :=
  let r := mallocOk p.alloc
  if !r.1 then { p with alloc := r.2 }
  else
    let pos : PCCPosition :=
      match parser_current p with
      | some t => t.position
      | none => ⟨0, 0, "<unknown>"⟩
    { p with alloc := r.2, errors := p.errors ++ [⟨pcc_strdup message, pos⟩] }

def parser_consume (p : Parser) (ty : TokenType) (errorMsg : String) : Option Token × Parser :=
  if parser_check p ty then parser_advance p
  else (none, parser_error p errorMsg)

/-- Modelled from the spec: `pcc_array_create` is not under src/; it performs
one allocation and yields an (initially empty) growable array, modelled by
the success flag plus the lists threaded through the interpreter. -/
def pcc_array_create (p : Parser) : Bool × Parser :=
  let r := mallocOk p.alloc
  (r.1, { p with alloc := r.2 })

/-- Modelled from the spec: each AST constructor (§4.2 of the design
document) performs one allocation and fails only when it fails; on success
it yields exactly the node built from its arguments. -/
def allocNode (n : ASTNode) (p : Parser) : Option ASTNode × Parser :=
  let r := mallocOk p.alloc
  (if r.1 then some n else none, { p with alloc := r.2 })

def ast_program_create (statements : List ASTNode) (p : Parser) : Option ASTNode × Parser :=
  allocNode (.program statements) p

def ast_prompt_def_create (name : String) (body : Option ASTNode) (pos : PCCPosition) (p : Parser) : Option ASTNode × Parser :=
  allocNode (.promptDef name body pos) p

def ast_var_decl_create (name : String) (initializer : ASTNode) (pos : PCCPosition) (p : Parser) : Option ASTNode × Parser :=
  allocNode (.varDecl name initializer pos) p

def ast_template_def_create (name : String) (parameters : List String) (body : Option ASTNode) (pos : PCCPosition) (p : Parser) : Option ASTNode × Parser :=
  allocNode (.templateDef name parameters body pos) p

def ast_constraint_def_create (name : String) (constraints : List ASTNode) (pos : PCCPosition) (p : Parser) : Option ASTNode × Parser :=
  allocNode (.constraintDef name constraints pos) p

def ast_constraint_expr_create (varName : String) (opType : TokenType) (value : ASTNode) (pos : PCCPosition) (p : Parser) : Option ASTNode × Parser :=
  allocNode (.constraintExpr varName opType value pos) p

def ast_output_spec_create (name : String) (format : Nat) (pos : PCCPosition) (p : Parser) : Option ASTNode × Parser :=
  allocNode (.outputSpec name format pos) p

def ast_list_create (elements : List ASTNode) (pos : PCCPosition) (p : Parser) : Option ASTNode × Parser :=
  allocNode (.elementList elements pos) p

def ast_text_element_create (text : String) (isRaw : Nat) (pos : PCCPosition) (p : Parser) : Option ASTNode × Parser :=
  allocNode (.textElement text isRaw pos) p

def ast_variable_ref_create (name : String) (pos : PCCPosition) (p : Parser) : Option ASTNode × Parser :=
  allocNode (.variableRef name pos) p

def ast_function_call_create (name : String) (arguments : List ASTNode) (pos : PCCPosition) (p : Parser) : Option ASTNode × Parser :=
  allocNode (.functionCall name arguments pos) p

def ast_if_stmt_create (condition : ASTNode) (thenBody : Option ASTNode) (elseBody : Option ASTNode) (pos : PCCPosition) (p : Parser) : Option ASTNode × Parser :=
  allocNode (.ifStmt condition thenBody elseBody pos) p

def ast_for_stmt_create (loopVar : String) (iterable : ASTNode) (body : Option ASTNode) (pos : PCCPosition) (p : Parser) : Option ASTNode × Parser :=
  allocNode (.forStmt loopVar iterable body pos) p

def ast_while_stmt_create (condition : ASTNode) (body : Option ASTNode) (pos : PCCPosition) (p : Parser) : Option ASTNode × Parser :=
  allocNode (.whileStmt condition body pos) p

def ast_binary_expr_create (op : TokenType) (left : Option ASTNode) (right : Option ASTNode) (pos : PCCPosition) (p : Parser) : Option ASTNode × Parser :=
  allocNode (.binaryExpr op left right pos) p

def ast_unary_expr_create (op : TokenType) (operand : Option ASTNode) (pos : PCCPosition) (p : Parser) : Option ASTNode × Parser :=
  allocNode (.unaryExpr op operand pos) p

def ast_identifier_create (name : String) (pos : PCCPosition) (p : Parser) : Option ASTNode × Parser :=
  allocNode (.identifier name pos) p

def ast_string_literal_create (value : String) (pos : PCCPosition) (p : Parser) : Option ASTNode × Parser :=
  allocNode (.stringLiteral value pos) p

def ast_number_literal_create (value : Int) (pos : PCCPosition) (p : Parser) : Option ASTNode × Parser :=
  allocNode (.numberLiteral value pos) p

def ast_boolean_literal_create (value : Nat) (pos : PCCPosition) (p : Parser) : Option ASTNode × Parser :=
  allocNode (.booleanLiteral value pos) p

/-- Result of running a parsing function with a fuel bound: `div` means the
fuel was exhausted (so the C code has not returned within that much work),
`ok` carries the returned value and the session state at return. -/
inductive PR (α : Type) where
  | div
  | ok (val : α) (post : Parser)
  deriving Repr

/-- Return values of the parsing functions: an AST node pointer, an
accumulated node list (a C loop's array), an accumulated name list, or void. -/
inductive Out where
  | node (n : Option ASTNode)
  | nodes (ns : List ASTNode)
  | names (ns : List String)
  | unit
  deriving Repr

/-- Call descriptors, one per static parsing function of src/src/parser.c;
the `...LoopFn` descriptors are the C `while`/`do-while` loop bodies, carrying
the loop accumulator. -/
inductive Call where
  | programFn
  | programLoopFn (stmts : List ASTNode)
  | syncFn
  | statementFn
  | promptDefFn
  | varDeclFn
  | templateDefFn
  | paramsLoopFn (ps : List String)
  | constraintDefFn
  | constraintLoopFn (cs : List ASTNode)
  | constraintExprFn
  | outputSpecFn
  | elementListFn
  | elemListLoopFn (elems : List ASTNode)
  | elementFn
  | textElementFn (isRaw : Nat)
  | variableElementFn
  | templateElementFn
  | argsLoopFn (args : List ASTNode)
  | ifStmtFn
  | forStmtFn
  | whileStmtFn
  | expressionFn
  | logicalOrFn
  | orLoopFn (left : Option ASTNode)
  | logicalAndFn
  | andLoopFn (left : Option ASTNode)
  | equalityFn
  | eqLoopFn (left : Option ASTNode)
  | comparisonFn
  | cmpLoopFn (left : Option ASTNode)
  | termFn
  | termLoopFn (left : Option ASTNode)
  | factorFn
  | factorLoopFn (left : Option ASTNode)
  | powerFn
  | unaryFn
  | primaryFn

/-- Sequence a sub-call that returns a node pointer. -/
def bindNode (r : PR Out) (k : Option ASTNode → Parser → PR Out) : PR Out :=
  match r with
  | .div => .div
  | .ok (.node n) p => k n p
  | .ok _ _ => .div

/-- Sequence a sub-call that returns a node list. -/
def bindNodes (r : PR Out) (k : List ASTNode → Parser → PR Out) : PR Out :=
  match r with
  | .div => .div
  | .ok (.nodes ns) p => k ns p
  | .ok _ _ => .div

/-- Sequence a sub-call that returns a name list. -/
def bindNames (r : PR Out) (k : List String → Parser → PR Out) : PR Out :=
  match r with
  | .div => .div
  | .ok (.names ns) p => k ns p
  | .ok _ _ => .div

/-- Sequence a sub-call that returns void. -/
def bindUnit (r : PR Out) (k : Parser → PR Out) : PR Out :=
  match r with
  | .div => .div
  | .ok .unit p => k p
  | .ok _ _ => .div

/-- One step of every parsing function of src/src/parser.c; `recur` is the
recursive entry used for every call to another parsing function. -/
def step (recur : Call → Parser → PR Out) (c : Call) (p : Parser) : PR Out :=
  match c with
  | .programFn =>
    let r := pcc_array_create p
    if !r.1 then .ok (.node none) r.2
    else
      bindNodes (recur (.programLoopFn []) r.2) fun statements p =>
        let r := ast_program_create statements p
        .ok (.node r.1) r.2
  | .programLoopFn stmts =>
    if !(parser_check p .EOF) then
      bindNode (recur .statementFn p) fun stmt p =>
        match stmt with
        | some s => recur (.programLoopFn (stmts ++ [s])) p
        | none =>
          bindUnit (recur .syncFn p) fun p =>
            recur (.programLoopFn stmts) p
    else .ok (.nodes stmts) p
  | .syncFn =>
    if !(parser_check p .EOF) && !(parser_check p .PROMPT) &&
       !(parser_check p .VAR) && !(parser_check p .TEMPLATE) &&
       !(parser_check p .CONSTRAINT) && !(parser_check p .OUTPUT) then
      let r := parser_advance p
      recur .syncFn r.2
    else .ok .unit p
  | .statementFn =>
    match parser_current p with
    | none => .ok (.node none) p
    | some token =>
      match token.type with
      | .PROMPT => recur .promptDefFn p
      | .VAR => recur .varDeclFn p
      | .TEMPLATE => recur .templateDefFn p
      | .CONSTRAINT => recur .constraintDefFn p
      | .OUTPUT => recur .outputSpecFn p
      | _ => .ok (.node none) (parser_error p "Expected statement")
  | .promptDefFn =>
    match parser_consume p .PROMPT "Expected PROMPT keyword" with
    | (none, p) => .ok (.node none) p
    | (some promptTok, p) =>
      match parser_consume p .IDENTIFIER "Expected prompt name" with
      | (none, p) => .ok (.node none) p
      | (some nameTok, p) =>
        let r := parser_consume p .LBRACE "Expected \x27\x7b\x27 after prompt name"
        bindNode (recur .elementListFn r.2) fun body p =>
          let r := parser_consume p .RBRACE "Expected \x27\x7d\x27 after prompt body"
          let r2 := ast_prompt_def_create nameTok.lexeme body promptTok.position r.2
          .ok (.node r2.1) r2.2
  | .varDeclFn =>
    match parser_consume p .VAR "Expected VAR keyword" with
    | (none, p) => .ok (.node none) p
    | (some varTok, p) =>
      match parser_consume p .IDENTIFIER "Expected variable name" with
      | (none, p) => .ok (.node none) p
      | (some nameTok, p) =>
        let r := parser_consume p .ASSIGN "Expected \x27=\x27 after variable name"
        bindNode (recur .expressionFn r.2) fun initializer p =>
          match initializer with
          | none => .ok (.node none) (parser_error p "Expected expression after \x27=\x27")
          | some initializer =>
            let r := parser_consume p .SEMICOLON "Expected \x27;\x27 after variable declaration"
            let r2 := ast_var_decl_create nameTok.lexeme initializer varTok.position r.2
            .ok (.node r2.1) r2.2
  | .templateDefFn =>
    match parser_consume p .TEMPLATE "Expected TEMPLATE keyword" with
    | (none, p) => .ok (.node none) p
    | (some templateTok, p) =>
      match parser_consume p .IDENTIFIER "Expected template name" with
      | (none, p) => .ok (.node none) p
      | (some nameTok, p) =>
        let r := parser_consume p .LPAREN "Expected \x27(\x27 after template name"
        let r2 := pcc_array_create r.2
        if !r2.1 then .ok (.node none) r2.2
        else
          let finish : List String → Parser → PR Out := fun parameters p =>
            let r := parser_consume p .RPAREN "Expected \x27)\x27 after parameters"
            let r2 := parser_consume r.2 .LBRACE "Expected \x27\x7b\x27 after template parameters"
            bindNode (recur .elementListFn r2.2) fun body p =>
              let r := parser_consume p .RBRACE "Expected \x27\x7d\x27 after template body"
              let r3 := ast_template_def_create nameTok.lexeme parameters body templateTok.position r.2
              .ok (.node r3.1) r3.2
          if !(parser_check r2.2 .RPAREN) then
            bindNames (recur (.paramsLoopFn []) r2.2) finish
          else finish [] r2.2
  | .paramsLoopFn ps =>
    let r := parser_consume p .IDENTIFIER "Expected parameter name"
    let ps := match r.1 with
      | some t => ps ++ [pcc_strdup t.lexeme]
      | none => ps
    let r2 := parser_match r.2 .COMMA
    if r2.1 then recur (.paramsLoopFn ps) r2.2
    else .ok (.names ps) r2.2
  | .constraintDefFn =>
    match parser_consume p .CONSTRAINT "Expected CONSTRAINT keyword" with
    | (none, p) => .ok (.node none) p
    | (some constraintTok, p) =>
      match parser_consume p .IDENTIFIER "Expected constraint name" with
      | (none, p) => .ok (.node none) p
      | (some nameTok, p) =>
        let r := parser_consume p .LBRACE "Expected \x27\x7b\x27 after constraint name"
        let r2 := pcc_array_create r.2
        if !r2.1 then .ok (.node none) r2.2
        else
          bindNodes (recur (.constraintLoopFn []) r2.2) fun constraints p =>
            let r := parser_consume p .RBRACE "Expected \x27\x7d\x27 after constraint body"
            let r3 := ast_constraint_def_create nameTok.lexeme constraints constraintTok.position r.2
            .ok (.node r3.1) r3.2
  | .constraintLoopFn cs =>
    if !(parser_check p .RBRACE) && !(parser_check p .EOF) then
      bindNode (recur .constraintExprFn p) fun constraint p =>
        let cs := match constraint with
          | some cexpr => cs ++ [cexpr]
          | none => cs
        let r := parser_consume p .SEMICOLON "Expected \x27;\x27 after constraint"
        recur (.constraintLoopFn cs) r.2
    else .ok (.nodes cs) p
  | .constraintExprFn =>
    match parser_consume p .IDENTIFIER "Expected variable name" with
    | (none, p) => .ok (.node none) p
    | (some varTok, p) =>
      match parser_current p with
      | none => .ok (.node none) p
      | some opTok =>
        let opType? : Option TokenType :=
          match opTok.type with
          | .EQ => some .EQ
          | .NE => some .NE
          | .LT => some .LT
          | .GT => some .GT
          | .LE => some .LE
          | .GE => some .GE
          | .IN => some .IN_OP
          | _ => none
        match opType? with
        | none => .ok (.node none) (parser_error p "Expected comparison operator")
        | some opType =>
          let r := parser_advance p
          bindNode (recur .expressionFn r.2) fun value p =>
            match value with
            | none => .ok (.node none) (parser_error p "Expected value after operator")
            | some value =>
              let r2 := ast_constraint_expr_create varTok.lexeme opType value varTok.position p
              .ok (.node r2.1) r2.2
  | .outputSpecFn =>
    match parser_consume p .OUTPUT "Expected OUTPUT keyword" with
    | (none, p) => .ok (.node none) p
    | (some outputTok, p) =>
      match parser_consume p .IDENTIFIER "Expected output name" with
      | (none, p) => .ok (.node none) p
      | (some nameTok, p) =>
        let r := parser_consume p .AS "Expected AS keyword"
        let formatTok := parser_current r.2
        let r2 := parser_match r.2 .IDENTIFIER
        let fr : Nat × Parser :=
          if r2.1 then
            match formatTok with
            | some ft =>
              if ft.lexeme = "JSON" then (1, r2.2)
              else if ft.lexeme = "TEXT" then (2, r2.2)
              else if ft.lexeme = "MARKDOWN" then (3, r2.2)
              else (0, parser_error r2.2 "Expected format (JSON, TEXT, or MARKDOWN)")
            | none => (0, r2.2)
          else (0, r2.2)
        let r3 := parser_consume fr.2 .SEMICOLON "Expected \x27;\x27 after output specification"
        let r4 := ast_output_spec_create nameTok.lexeme fr.1 outputTok.position r3.2
        .ok (.node r4.1) r4.2
  | .elementListFn =>
    let r := pcc_array_create p
    if !r.1 then .ok (.node none) r.2
    else
      bindNodes (recur (.elemListLoopFn []) r.2) fun elements p =>
        let r2 := ast_list_create elements ⟨0, 0, "<element_list>"⟩ p
        .ok (.node r2.1) r2.2
  | .elemListLoopFn elems =>
    if !(parser_check p .RBRACE) && !(parser_check p .RPAREN) &&
       !(parser_check p .EOF) then
      bindNode (recur .elementFn p) fun element p =>
        let elems := match element with
          | some e => elems ++ [e]
          | none => elems
        recur (.elemListLoopFn elems) p
    else .ok (.nodes elems) p
  | .elementFn =>
    match parser_current p with
    | none => .ok (.node none) p
    | some token =>
      match token.type with
      | .STRING => recur (.textElementFn 0) p
      | .RAW => recur (.textElementFn 1) p
      | .VARIABLE_REF => recur .variableElementFn p
      | .TEMPLATE_CALL => recur .templateElementFn p
      | .IF => recur .ifStmtFn p
      | .FOR => recur .forStmtFn p
      | .WHILE => recur .whileStmtFn p
      | _ => recur .expressionFn p
  | .textElementFn isRaw =>
    match parser_current p with
    | none => .ok (.node none) p
    | some cur =>
      let pos := cur.position
      match parser_consume p .STRING "Expected string literal" with
      | (none, p) => .ok (.node none) p
      | (some stringTok, p) =>
        let r := ast_text_element_create stringTok.stringVal isRaw pos p
        .ok (.node r.1) r.2
  | .variableElementFn =>
    match parser_consume p .VARIABLE_REF "Expected variable reference" with
    | (none, p) => .ok (.node none) p
    | (some token, p) =>
      let varName := pcc_strdup (token.lexeme.drop 1)
      let r := ast_variable_ref_create varName token.position p
      .ok (.node r.1) r.2
  | .templateElementFn =>
    match parser_consume p .TEMPLATE_CALL "Expected template call" with
    | (none, p) => .ok (.node none) p
    | (some token, p) =>
      let r := parser_consume p .LPAREN "Expected \x27(\x27 after template name"
      let r2 := pcc_array_create r.2
      if !r2.1 then .ok (.node none) r2.2
      else
        let finish : List ASTNode → Parser → PR Out := fun arguments p =>
          let r := parser_consume p .RPAREN "Expected \x27)\x27 after template arguments"
          let templateName := pcc_strdup (token.lexeme.drop 1)
          let r3 := ast_function_call_create templateName arguments token.position r.2
          .ok (.node r3.1) r3.2
        if !(parser_check r2.2 .RPAREN) then
          bindNodes (recur (.argsLoopFn []) r2.2) finish
        else finish [] r2.2
  | .argsLoopFn args =>
    bindNode (recur .expressionFn p) fun arg p =>
      let args := match arg with
        | some a => args ++ [a]
        | none => args
      let r := parser_match p .COMMA
      if r.1 then recur (.argsLoopFn args) r.2
      else .ok (.nodes args) r.2
  | .ifStmtFn =>
    match parser_consume p .IF "Expected IF keyword" with
    | (none, p) => .ok (.node none) p
    | (some ifTok, p) =>
      bindNode (recur .expressionFn p) fun condition p =>
        match condition with
        | none => .ok (.node none) (parser_error p "Expected condition after IF")
        | some condition =>
          let r := parser_consume p .LBRACE "Expected \x27\x7b\x27 after IF condition"
          bindNode (recur .elementListFn r.2) fun thenBody p =>
            let r := parser_consume p .RBRACE "Expected \x27\x7d\x27 after IF body"
            let r2 := parser_match r.2 .ELSE
            if r2.1 then
              let r3 := parser_consume r2.2 .LBRACE "Expected \x27\x7b\x27 after ELSE"
              bindNode (recur .elementListFn r3.2) fun elseBody p =>
                let r := parser_consume p .RBRACE "Expected \x27\x7d\x27 after ELSE body"
                let r4 := ast_if_stmt_create condition thenBody elseBody ifTok.position r.2
                .ok (.node r4.1) r4.2
            else
              let r4 := ast_if_stmt_create condition thenBody none ifTok.position r2.2
              .ok (.node r4.1) r4.2
  | .forStmtFn =>
    match parser_consume p .FOR "Expected FOR keyword" with
    | (none, p) => .ok (.node none) p
    | (some forTok, p) =>
      match parser_consume p .IDENTIFIER "Expected loop variable" with
      | (none, p) => .ok (.node none) p
      | (some varTok, p) =>
        let r := parser_consume p .IN "Expected IN keyword"
        bindNode (recur .expressionFn r.2) fun iterable p =>
          match iterable with
          | none => .ok (.node none) (parser_error p "Expected iterable after IN")
          | some iterable =>
            let r := parser_consume p .LBRACE "Expected \x27\x7b\x27 after FOR iterable"
            bindNode (recur .elementListFn r.2) fun body p =>
              let r := parser_consume p .RBRACE "Expected \x27\x7d\x27 after FOR body"
              let r2 := ast_for_stmt_create varTok.lexeme iterable body forTok.position r.2
              .ok (.node r2.1) r2.2
  | .whileStmtFn =>
    match parser_consume p .WHILE "Expected WHILE keyword" with
    | (none, p) => .ok (.node none) p
    | (some whileTok, p) =>
      bindNode (recur .expressionFn p) fun condition p =>
        match condition with
        | none => .ok (.node none) (parser_error p "Expected condition after WHILE")
        | some condition =>
          let r := parser_consume p .LBRACE "Expected \x27\x7b\x27 after WHILE condition"
          bindNode (recur .elementListFn r.2) fun body p =>
            let r := parser_consume p .RBRACE "Expected \x27\x7d\x27 after WHILE body"
            let r2 := ast_while_stmt_create condition body whileTok.position r.2
            .ok (.node r2.1) r2.2
  | .expressionFn => recur .logicalOrFn p
  | .logicalOrFn =>
    bindNode (recur .logicalAndFn p) fun left p =>
      recur (.orLoopFn left) p
  | .orLoopFn left =>
    let r := parser_match p .OR
    if r.1 then
      let opTok := parser_current r.2
      bindNode (recur .logicalAndFn r.2) fun right p =>
        let pos := match opTok with
          | some t => t.position
          | none => ⟨0, 0, "<unknown>"⟩
        let r2 := ast_binary_expr_create .OR left right pos p
        recur (.orLoopFn r2.1) r2.2
    else .ok (.node left) r.2
  | .logicalAndFn =>
    bindNode (recur .equalityFn p) fun left p =>
      recur (.andLoopFn left) p
  | .andLoopFn left =>
    let r := parser_match p .AND
    if r.1 then
      let opTok := parser_current r.2
      bindNode (recur .equalityFn r.2) fun right p =>
        let pos := match opTok with
          | some t => t.position
          | none => ⟨0, 0, "<unknown>"⟩
        let r2 := ast_binary_expr_create .AND left right pos p
        recur (.andLoopFn r2.1) r2.2
    else .ok (.node left) r.2
  | .equalityFn =>
    bindNode (recur .comparisonFn p) fun left p =>
      recur (.eqLoopFn left) p
  | .eqLoopFn left =>
    let r1 := parser_match p .EQ
    let r := if r1.1 then r1 else parser_match r1.2 .NE
    if r.1 then
      let opTok := parser_current r.2
      bindNode (recur .comparisonFn r.2) fun right p =>
        let oppos : TokenType × PCCPosition := match opTok with
          | some t => (t.type, t.position)
          | none => (.EOF, ⟨0, 0, "<unknown>"⟩)
        let r2 := ast_binary_expr_create oppos.1 left right oppos.2 p
        recur (.eqLoopFn r2.1) r2.2
    else .ok (.node left) r.2
  | .comparisonFn =>
    bindNode (recur .termFn p) fun left p =>
      recur (.cmpLoopFn left) p
  | .cmpLoopFn left =>
    let r1 := parser_match p .LT
    let r2 := if r1.1 then r1 else parser_match r1.2 .GT
    let r3 := if r2.1 then r2 else parser_match r2.2 .LE
    let r := if r3.1 then r3 else parser_match r3.2 .GE
    if r.1 then
      let opTok := parser_current r.2
      bindNode (recur .termFn r.2) fun right p =>
        let oppos : TokenType × PCCPosition := match opTok with
          | some t => (t.type, t.position)
          | none => (.EOF, ⟨0, 0, "<unknown>"⟩)
        let r4 := ast_binary_expr_create oppos.1 left right oppos.2 p
        recur (.cmpLoopFn r4.1) r4.2
    else .ok (.node left) r.2
  | .termFn =>
    bindNode (recur .factorFn p) fun left p =>
      recur (.termLoopFn left) p
  | .termLoopFn left =>
    let r1 := parser_match p .ADD
    let r := if r1.1 then r1 else parser_match r1.2 .SUB
    if r.1 then
      let opTok := parser_current r.2
      bindNode (recur .factorFn r.2) fun right p =>
        let oppos : TokenType × PCCPosition := match opTok with
          | some t => (t.type, t.position)
          | none => (.EOF, ⟨0, 0, "<unknown>"⟩)
        let r2 := ast_binary_expr_create oppos.1 left right oppos.2 p
        recur (.termLoopFn r2.1) r2.2
    else .ok (.node left) r.2
  | .factorFn =>
    bindNode (recur .powerFn p) fun left p =>
      recur (.factorLoopFn left) p
  | .factorLoopFn left =>
    let r1 := parser_match p .MUL
    let r2 := if r1.1 then r1 else parser_match r1.2 .DIV
    let r := if r2.1 then r2 else parser_match r2.2 .MOD
    if r.1 then
      let opTok := parser_current r.2
      bindNode (recur .powerFn r.2) fun right p =>
        let oppos : TokenType × PCCPosition := match opTok with
          | some t => (t.type, t.position)
          | none => (.EOF, ⟨0, 0, "<unknown>"⟩)
        let r3 := ast_binary_expr_create oppos.1 left right oppos.2 p
        recur (.factorLoopFn r3.1) r3.2
    else .ok (.node left) r.2
  | .powerFn =>
    bindNode (recur .unaryFn p) fun left p =>
      let r := parser_match p .POW
      if r.1 then
        let opTok := parser_current r.2
        bindNode (recur .powerFn r.2) fun right p =>
          let pos := match opTok with
            | some t => t.position
            | none => ⟨0, 0, "<unknown>"⟩
          let r2 := ast_binary_expr_create .POW left right pos p
          .ok (.node r2.1) r2.2
      else .ok (.node left) r.2
  | .unaryFn =>
    let r1 := parser_match p .NOT
    let r := if r1.1 then r1 else parser_match r1.2 .SUB
    if r.1 then
      let opTok := parser_current r.2
      bindNode (recur .unaryFn r.2) fun operand p =>
        let oppos : TokenType × PCCPosition := match opTok with
          | some t => (t.type, t.position)
          | none => (.EOF, ⟨0, 0, "<unknown>"⟩)
        let r2 := ast_unary_expr_create oppos.1 operand oppos.2 p
        .ok (.node r2.1) r2.2
    else recur .primaryFn r.2
  | .primaryFn =>
    match parser_current p with
    | none => .ok (.node none) p
    | some token =>
      match token.type with
      | .IDENTIFIER =>
        let r := parser_advance p
        let r2 := ast_identifier_create token.lexeme token.position r.2
        .ok (.node r2.1) r2.2
      | .STRING =>
        let r := parser_advance p
        let r2 := ast_string_literal_create token.stringVal token.position r.2
        .ok (.node r2.1) r2.2
      | .NUMBER =>
        let r := parser_advance p
        let r2 := ast_number_literal_create token.numberVal token.position r.2
        .ok (.node r2.1) r2.2
      | .TRUE =>
        let r := parser_advance p
        let r2 := ast_boolean_literal_create 1 token.position r.2
        .ok (.node r2.1) r2.2
      | .FALSE =>
        let r := parser_advance p
        let r2 := ast_boolean_literal_create 0 token.position r.2
        .ok (.node r2.1) r2.2
      | .LPAREN =>
        let r := parser_advance p
        bindNode (recur .expressionFn r.2) fun expr p =>
          let r2 := parser_consume p .RPAREN "Expected \x27)\x27 after expression"
          .ok (.node expr) r2.2
      | _ => .ok (.node none) (parser_error p "Expected expression")

/-- Fuel-indexed interpretation of the parsing functions: `PR.div` exactly
when the C execution performs more calls/loop iterations than `fuel`. -/
def run : Nat → Call → Parser → PR Out
  | 0, _, _ => .div
  | fuel + 1, c, p => step (run fuel) c p

/-- `parser_create`: a fresh session over a token sequence, with the given
allocation failure set and the allocation counter starting at the parse. -/
def parser_create (tokens : List Token) (failSet : List Nat) : Parser :=
  ⟨tokens, 0, [], ⟨failSet, 0⟩⟩

/-- `parser_parse` is `parse_program` on the session. -/
def parser_parse (fuel : Nat) (p : Parser) : PR Out :=
  run fuel .programFn p

def parse_statement (fuel : Nat) (p : Parser) : PR Out :=
  run fuel .statementFn p

def parse_expression (fuel : Nat) (p : Parser) : PR Out :=
  run fuel .expressionFn p

def parse_constraint_expr (fuel : Nat) (p : Parser) : PR Out :=
  run fuel .constraintExprFn p

def parse_output_spec (fuel : Nat) (p : Parser) : PR Out :=
  run fuel .outputSpecFn p

def parse_element_list (fuel : Nat) (p : Parser) : PR Out :=
  run fuel .elementListFn p

def parse_power (fuel : Nat) (p : Parser) : PR Out :=
  run fuel .powerFn p

/-- `parser_has_errors`: true iff the session's error list is non-empty. -/
def parser_has_errors (p : Parser) : Bool :=
  decide (0 < p.errors.length)

/-- `parser_error_count`. -/
def parser_error_count (p : Parser) : Nat :=
  p.errors.length

/-!
Lexer model.  lexer.c is not under src/ (only its callers are), so the lexer
is modelled from §4.1 of the design document: scan the source string into an
ordered token sequence terminated by exactly one end-of-input token, skipping
whitespace (newlines bump the line counter and reset the column), mapping the
fixed keyword table, identifiers, numbers, quoted strings with quote and
backslash escapes (an unterminated string yields a diagnostic at the opening
quote plus a best-effort token), sigil forms and greedy multi-character
operators.  The design document leaves the raw-literal delimiter unspecified
and no claim depends on raw literals, so they are not produced here.
-/

/-- Modelled from the spec: identifier start characters. -/
def isIdentStart (c : Char) : Bool := c.isAlpha || c = '_'

/-- Modelled from the spec: identifier continuation characters. -/
def isIdentChar (c : Char) : Bool := c.isAlphanum || c = '_'

/-- Modelled from the spec: the fixed keyword table (reserved spellings,
lowercase per the design document's `var x = 5;` tokenization example). -/
def keyword_type (s : String) : Option TokenType :=
  if s = "prompt" then some .PROMPT
  else if s = "var" then some .VAR
  else if s = "template" then some .TEMPLATE
  else if s = "constraint" then some .CONSTRAINT
  else if s = "output" then some .OUTPUT
  else if s = "if" then some .IF
  else if s = "else" then some .ELSE
  else if s = "for" then some .FOR
  else if s = "while" then some .WHILE
  else if s = "in" then some .IN
  else if s = "as" then some .AS
  else if s = "and" then some .AND
  else if s = "or" then some .OR
  else if s = "not" then some .NOT
  else if s = "true" then some .TRUE
  else if s = "false" then some .FALSE
  else none

/-- Modelled from the spec: digit string to the DSL's numeric value
(claims only involve integer literals). -/
def digitsVal (cs : List Char) : Int :=
  Int.ofNat (cs.foldl (fun a c => a * 10 + (c.toNat - 48)) 0)

/-- Modelled from the spec: scan a quoted string body; returns the decoded
value, the raw characters consumed (after the opening quote), the remaining
input and whether the closing quote was found. -/
def scanString : List Char → String → Nat → (String × Nat × List Char × Bool)
  | [], acc, used => (acc, used, [], false)
  | '"' :: rest, acc, used => (acc, used + 1, rest, true)
  | '\\' :: '"' :: rest, acc, used => scanString rest (acc.push '"') (used + 2)
  | '\\' :: '\\' :: rest, acc, used => scanString rest (acc.push '\\') (used + 2)
  | c :: rest, acc, used => scanString rest (acc.push c) (used + 1)

/-- Modelled from the spec: the scanning loop.  Each step consumes at least
one character; the fuel argument is the character count plus one, so the
fuel bound is never the reason a token is dropped. -/
def lexLoop : Nat → List Char → Nat → Nat → String → List Token × List ParseError
  | 0, _, line, col, name => ([⟨.EOF, "", "", 0, ⟨line, col, name⟩⟩], [])
  | fuel + 1, cs, line, col, name =>
    match cs with
    | [] => ([⟨.EOF, "", "", 0, ⟨line, col, name⟩⟩], [])
    | ch :: rest =>
      if ch = '\n' then lexLoop fuel rest (line + 1) 1 name
      else if ch = ' ' || ch = '\t' || ch = '\r' then lexLoop fuel rest line (col + 1) name
      else if isIdentStart ch then
        let word := ch :: rest.takeWhile isIdentChar
        let rest' := rest.dropWhile isIdentChar
        let s := String.mk word
        let ty := match keyword_type s with
          | some k => k
          | none => .IDENTIFIER
        let r := lexLoop fuel rest' line (col + word.length) name
        (⟨ty, s, "", 0, ⟨line, col, name⟩⟩ :: r.1, r.2)
      else if ch.isDigit then
        let intPart := ch :: rest.takeWhile Char.isDigit
        let rest1 := rest.dropWhile Char.isDigit
        let fr : List Char × List Char :=
          match rest1 with
          | '.' :: d :: more =>
            if d.isDigit then ('.' :: d :: more.takeWhile Char.isDigit, more.dropWhile Char.isDigit)
            else ([], rest1)
          | _ => ([], rest1)
        let lexeme := String.mk (intPart ++ fr.1)
        let r := lexLoop fuel fr.2 line (col + intPart.length + fr.1.length) name
        (⟨.NUMBER, lexeme, "", digitsVal intPart, ⟨line, col, name⟩⟩ :: r.1, r.2)
      else if ch = '"' then
        let sc := scanString rest "" 0
        let r := lexLoop fuel sc.2.2.1 line (col + 1 + sc.2.1) name
        let tok : Token := ⟨.STRING, "\"" ++ sc.1, sc.1, 0, ⟨line, col, name⟩⟩
        if sc.2.2.2 then (tok :: r.1, r.2)
        else (tok :: r.1, ⟨"Unterminated string literal", ⟨line, col, name⟩⟩ :: r.2)
      else if ch = '$' || ch = '@' then
        match rest with
        | c2 :: _ =>
          if isIdentStart c2 then
            let word := rest.takeWhile isIdentChar
            let rest' := rest.dropWhile isIdentChar
            let s := String.mk (ch :: word)
            let ty : TokenType := if ch = '$' then .VARIABLE_REF else .TEMPLATE_CALL
            let r := lexLoop fuel rest' line (col + 1 + word.length) name
            (⟨ty, s, "", 0, ⟨line, col, name⟩⟩ :: r.1, r.2)
          else
            let r := lexLoop fuel rest line (col + 1) name
            (r.1, ⟨"Unexpected character", ⟨line, col, name⟩⟩ :: r.2)
        | [] =>
          let r := lexLoop fuel rest line (col + 1) name
          (r.1, ⟨"Unexpected character", ⟨line, col, name⟩⟩ :: r.2)
      else
        let two : Option (TokenType × Nat) :=
          match ch, rest with
          | '=', '=' :: _ => some (.EQ, 2)
          | '!', '=' :: _ => some (.NE, 2)
          | '<', '=' :: _ => some (.LE, 2)
          | '>', '=' :: _ => some (.GE, 2)
          | '=', _ => some (.ASSIGN, 1)
          | '<', _ => some (.LT, 1)
          | '>', _ => some (.GT, 1)
          | '{', _ => some (.LBRACE, 1)
          | '}', _ => some (.RBRACE, 1)
          | '(', _ => some (.LPAREN, 1)
          | ')', _ => some (.RPAREN, 1)
          | ',', _ => some (.COMMA, 1)
          | ';', _ => some (.SEMICOLON, 1)
          | '+', _ => some (.ADD, 1)
          | '-', _ => some (.SUB, 1)
          | '*', _ => some (.MUL, 1)
          | '/', _ => some (.DIV, 1)
          | '%', _ => some (.MOD, 1)
          | '^', _ => some (.POW, 1)
          | _, _ => none
        match two with
        | some tw =>
          let consumed := (ch :: rest).take tw.2
          let rest' := (ch :: rest).drop tw.2
          let r := lexLoop fuel rest' line (col + tw.2) name
          (⟨tw.1, String.mk consumed, "", 0, ⟨line, col, name⟩⟩ :: r.1, r.2)
        | none =>
          let r := lexLoop fuel rest line (col + 1) name
          (r.1, ⟨"Unexpected character", ⟨line, col, name⟩⟩ :: r.2)

/-- Modelled from the spec: `lexer_tokenize` over a fully materialized
source buffer; produces the token sequence (always terminated by exactly one
end-of-input token) and the lexical diagnostics. -/
def lexer_tokenize (source : String) (sourceName : String) : List Token × List ParseError :=
  lexLoop (source.length + 1) source.toList 1 1 sourceName

/-!
Invariants used by the claims: one-based positions, end-of-input-terminated
token sequences, in-range cursors, and preservation of the session state by
every parsing function.
-/

/-- A position with one-based line and column. -/
def posGood (pos : PCCPosition) : Prop := 1 ≤ pos.line ∧ 1 ≤ pos.column

instance (pos : PCCPosition) : Decidable (posGood pos) := by
  unfold posGood; infer_instance

/-- Every token of the sequence carries a one-based position. -/
def goodTokens (ts : List Token) : Prop := ∀ t ∈ ts, posGood t.position

instance (ts : List Token) : Decidable (goodTokens ts) := by
  unfold goodTokens; infer_instance

/-- The token sequence ends with the end-of-input token. -/
def eofTerm (ts : List Token) : Prop := ts.getLast?.map Token.type = some .EOF

instance (ts : List Token) : Decidable (eofTerm ts) := by
  unfold eofTerm; infer_instance

/-- A well-formed session: one-based token positions, an end-of-input
terminated sequence, and a cursor on a token. -/
def goodState (p : Parser) : Prop :=
  goodTokens p.tokens ∧ eofTerm p.tokens ∧ p.current < p.tokens.length

instance (p : Parser) : Decidable (goodState p) := by
  unfold goodState; infer_instance

/-- State preservation by a parsing step: the token sequence and the
allocation failure set never change, the error list only grows, and
well-formedness is kept. -/
def Pres (p q : Parser) : Prop :=
  q.tokens = p.tokens ∧ q.alloc.failSet = p.alloc.failSet ∧
  (∃ t, q.errors = p.errors ++ t) ∧ (goodState p → goodState q)

theorem pres_refl (p : Parser) : Pres p p :=
  ⟨rfl, rfl, ⟨[], by simp⟩, id⟩

theorem pres_trans {p q r : Parser} (h1 : Pres p q) (h2 : Pres q r) : Pres p r := by
  obtain ⟨a1, b1, ⟨t1, c1⟩, d1⟩ := h1
  obtain ⟨a2, b2, ⟨t2, c2⟩, d2⟩ := h2
  exact ⟨a2.trans a1, b2.trans b1, ⟨t1 ++ t2, by rw [c2, c1, List.append_assoc]⟩,
    fun hg => d2 (d1 hg)⟩

theorem parser_current_eq (p : Parser) : parser_current p = p.tokens.get? p.current := by
  simp [parser_current, parser_peek, lexer_get_token]

theorem parser_current_lt {p : Parser} {t : Token}
    (h : parser_current p = some t) : p.current < p.tokens.length := by
  rw [parser_current_eq] at h
  rcases List.get?_eq_some.1 h with ⟨hn, -⟩
  exact hn

theorem parser_current_mem {p : Parser} {t : Token}
    (h : parser_current p = some t) : t ∈ p.tokens := by
  rw [parser_current_eq] at h
  exact List.get?_mem h

theorem goodState_current {p : Parser} (hg : goodState p) :
    ∃ t, parser_current p = some t := by
  obtain ⟨-, -, hlt⟩ := hg
  cases h : parser_current p with
  | none =>
    exfalso
    rw [parser_current_eq] at h
    have := List.get?_eq_none.1 h
    omega
  | some t => exact ⟨t, rfl⟩

theorem goodState_posGood {p : Parser} {t : Token} (hg : goodState p)
    (h : parser_current p = some t) : posGood t.position :=
  hg.1 t (parser_current_mem h)

/-- In an end-of-input terminated sequence, a non-terminal token is never
the last one. -/
theorem eof_cursor_lt {ts : List Token} {i : Nat} {t : Token}
    (he : eofTerm ts) (h : ts.get? i = some t) (hne : t.type ≠ .EOF) :
    i + 1 < ts.length := by
  rcases List.get?_eq_some.1 h with ⟨hn, -⟩
  by_contra hcon
  have hlen : ts.length = i + 1 := by omega
  have hlast : ts.getLast? = some t := by
    rw [List.getLast?_eq_get?, hlen]
    simpa using h
  rw [eofTerm, hlast] at he
  exact hne (by simpa using he)

theorem advance_fst (p : Parser) : (parser_advance p).1 = parser_current p := by
  unfold parser_advance
  cases h : parser_current p
  · rfl
  · simp only []
    split <;> rfl

theorem advance_components (p : Parser) :
    (parser_advance p).2.tokens = p.tokens ∧ (parser_advance p).2.errors = p.errors ∧
    (parser_advance p).2.alloc = p.alloc := by
  unfold parser_advance
  cases h : parser_current p
  · exact ⟨rfl, rfl, rfl⟩
  · simp only []
    split <;> exact ⟨rfl, rfl, rfl⟩

theorem advance_good {p : Parser} (hg : goodState p) : goodState (parser_advance p).2 := by
  unfold parser_advance
  cases h : parser_current p with
  | none => exact hg
  | some t =>
    simp only []
    split
    · next hne =>
      refine ⟨hg.1, hg.2.1, ?_⟩
      have hcl : p.current + 1 < p.tokens.length := by
        rw [parser_current_eq] at h
        exact eof_cursor_lt hg.2.1 h hne
      simpa using hcl
    · exact hg

theorem pres_advance (p : Parser) : Pres p (parser_advance p).2 := by
  obtain ⟨h1, h2, h3⟩ := advance_components p
  exact ⟨h1, by rw [h3], ⟨[], by rw [h2, List.append_nil]⟩, fun hg => advance_good hg⟩

/-- Position used by `parser_error`: the current token's, else a placeholder. -/
def currentPos (p : Parser) : PCCPosition :=
  match parser_current p with
  | some t => t.position
  | none => ⟨0, 0, "<unknown>"⟩

theorem error_components (p : Parser) (m : String) :
    (parser_error p m).tokens = p.tokens ∧ (parser_error p m).current = p.current ∧
    (parser_error p m).alloc.failSet = p.alloc.failSet ∧
    ((parser_error p m).errors = p.errors ∨
      (parser_error p m).errors = p.errors ++ [⟨m, currentPos p⟩]) := by
  cases hc : p.alloc.failSet.contains p.alloc.count with
  | true =>
    have hm : p.alloc.count ∈ p.alloc.failSet := by simpa using hc
    simp [parser_error, mallocOk, hm]
  | false =>
    have hm : p.alloc.count ∉ p.alloc.failSet := by simpa using hc
    cases hcur : parser_current p with
    | none => simp [parser_error, mallocOk, hm, pcc_strdup, currentPos, hcur]
    | some t => simp [parser_error, mallocOk, hm, pcc_strdup, currentPos, hcur]

theorem pres_error (p : Parser) (m : String) : Pres p (parser_error p m) := by
  obtain ⟨h1, h2, h3, h4⟩ := error_components p m
  refine ⟨h1, h3, ?_, ?_⟩
  · rcases h4 with h | h
    · exact ⟨[], by rw [h, List.append_nil]⟩
    · exact ⟨[⟨m, currentPos p⟩], h⟩
  · intro hg
    exact ⟨h1 ▸ hg.1, h1 ▸ hg.2.1, by rw [h1, h2]; exact hg.2.2⟩

theorem error_append {p : Parser} {m : String} (h : p.alloc.failSet = []) :
    (parser_error p m).errors = p.errors ++ [⟨m, currentPos p⟩] := by
  cases hcur : parser_current p with
  | none => simp [parser_error, mallocOk, h, pcc_strdup, currentPos, hcur]
  | some t => simp [parser_error, mallocOk, h, pcc_strdup, currentPos, hcur]

theorem consume_none {p : Parser} {ty : TokenType} {m : String} {q : Parser}
    (h : parser_consume p ty m = (none, q)) :
    q = parser_error p m ∧ parser_check p ty = false := by
  unfold parser_consume at h
  split at h
  · next hchk =>
    exfalso
    unfold parser_check at hchk
    rcases hcur : parser_current p with - | t
    · rw [hcur] at hchk; simp at hchk
    · have hfst : (parser_advance p).1 = some t := by rw [advance_fst, hcur]
      rcases hadv : parser_advance p with ⟨f, q2⟩
      rw [hadv] at hfst h
      have hf : f = some t := hfst
      subst hf
      simp at h
  · next hchk =>
    injection h with h1 h2
    exact ⟨h2.symm, by simpa using hchk⟩

theorem consume_some {p : Parser} {ty : TokenType} {m : String} {t : Token} {q : Parser}
    (h : parser_consume p ty m = (some t, q)) :
    parser_current p = some t ∧ t.type = ty ∧ q = (parser_advance p).2 := by
  unfold parser_consume at h
  split at h
  · next hchk =>
    unfold parser_check at hchk
    rcases hcur : parser_current p with - | u
    · rw [hcur] at hchk; simp at hchk
    · rw [hcur] at hchk
      have hty : u.type = ty := by simpa using hchk
      have hfst : (parser_advance p).1 = some u := by rw [advance_fst, hcur]
      rcases hadv : parser_advance p with ⟨f, q2⟩
      rw [hadv] at hfst h
      have hf : f = some u := hfst
      subst hf
      injection h with h1 h2
      injection h1 with h1
      subst h1
      subst h2
      exact ⟨rfl, hty, rfl⟩
  · simp at h

theorem consume_some_components {p : Parser} {ty : TokenType} {m : String} {t : Token}
    {q : Parser} (h : parser_consume p ty m = (some t, q)) :
    q.tokens = p.tokens ∧ q.errors = p.errors ∧ q.alloc = p.alloc ∧
    (goodState p → goodState q) := by
  obtain ⟨-, -, hq⟩ := consume_some h
  subst hq
  obtain ⟨h1, h2, h3⟩ := advance_components p
  exact ⟨h1, h2, h3, advance_good⟩

theorem pres_consume (p : Parser) (ty : TokenType) (m : String) :
    Pres p (parser_consume p ty m).2 := by
  unfold parser_consume
  split
  · exact pres_advance p
  · exact pres_error p m

theorem match_components (p : Parser) (ty : TokenType) :
    (parser_match p ty).2.tokens = p.tokens ∧ (parser_match p ty).2.errors = p.errors ∧
    (parser_match p ty).2.alloc = p.alloc ∧
    (goodState p → goodState (parser_match p ty).2) := by
  unfold parser_match
  split
  · obtain ⟨h1, h2, h3⟩ := advance_components p
    exact ⟨h1, h2, h3, advance_good⟩
  · exact ⟨rfl, rfl, rfl, id⟩

theorem pres_match (p : Parser) (ty : TokenType) : Pres p (parser_match p ty).2 := by
  obtain ⟨h1, h2, h3, h4⟩ := match_components p ty
  exact ⟨h1, by rw [h3], ⟨[], by rw [h2, List.append_nil]⟩, h4⟩

theorem match_true {p : Parser} {ty : TokenType} (h : (parser_match p ty).1 = true) :
    ∃ t, parser_current p = some t ∧ t.type = ty ∧
      (parser_match p ty).2 = (parser_advance p).2 := by
  cases hchk : parser_check p ty with
  | false =>
    exfalso
    unfold parser_match at h
    rw [hchk] at h
    simp at h
  | true =>
    have hc2 := hchk
    unfold parser_check at hchk
    rcases hcur : parser_current p with - | u
    · rw [hcur] at hchk; simp at hchk
    · rw [hcur] at hchk
      refine ⟨u, rfl, by simpa using hchk, ?_⟩
      unfold parser_match
      rw [hc2]
      simp

theorem match_false {p : Parser} {ty : TokenType} (h : (parser_match p ty).1 = false) :
    (parser_match p ty).2 = p := by
  cases hchk : parser_check p ty with
  | true =>
    exfalso
    unfold parser_match at h
    rw [hchk] at h
    simp at h
  | false =>
    unfold parser_match
    rw [hchk]
    simp

theorem allocNode_snd (n : ASTNode) (p : Parser) :
    (allocNode n p).2 = { p with alloc := (mallocOk p.alloc).2 } := by
  unfold allocNode
  rfl

theorem allocNode_fst_cases (n : ASTNode) (p : Parser) :
    (allocNode n p).1 = some n ∨ (allocNode n p).1 = none := by
  cases hb : (mallocOk p.alloc).1
  · right; simp [allocNode, hb]
  · left; simp [allocNode, hb]

theorem allocNode_fst_ok {p : Parser} (n : ASTNode) (h : p.alloc.failSet = []) :
    (allocNode n p).1 = some n := by
  simp [allocNode, mallocOk, h]

theorem pres_allocNode (n : ASTNode) (p : Parser) : Pres p (allocNode n p).2 := by
  rw [allocNode_snd]
  exact ⟨rfl, rfl, ⟨[], by simp⟩, id⟩

theorem arrayCreate_snd (p : Parser) :
    (pcc_array_create p).2 = { p with alloc := (mallocOk p.alloc).2 } := rfl

theorem arrayCreate_ok {p : Parser} (h : p.alloc.failSet = []) :
    (pcc_array_create p).1 = true := by
  simp [pcc_array_create, mallocOk, h]

theorem pres_arrayCreate (p : Parser) : Pres p (pcc_array_create p).2 := by
  rw [arrayCreate_snd]
  exact ⟨rfl, rfl, ⟨[], by simp⟩, id⟩

/-!
Position-goodness predicates over produced AST nodes.  `NodeOkStrict`
renders the specification sentence literally (every node position is
one-based; the Program root, built without a position argument, only imposes
the condition on its children).  `NodeOk` is the amended form: ElementList
nodes, which the parser builds with the fixed `0:0 <element_list>`
placeholder, are also exempted from the condition on their own position.
-/

inductive NodeOkStrict : ASTNode → Prop where
  | program {stmts} : (∀ n ∈ stmts, NodeOkStrict n) → NodeOkStrict (.program stmts)
  | promptDef {name body pos} : posGood pos → (∀ n, body = some n → NodeOkStrict n) →
      NodeOkStrict (.promptDef name body pos)
  | varDecl {name init pos} : posGood pos → NodeOkStrict init →
      NodeOkStrict (.varDecl name init pos)
  | templateDef {name ps body pos} : posGood pos → (∀ n, body = some n → NodeOkStrict n) →
      NodeOkStrict (.templateDef name ps body pos)
  | constraintDef {name cs pos} : posGood pos → (∀ n ∈ cs, NodeOkStrict n) →
      NodeOkStrict (.constraintDef name cs pos)
  | constraintExpr {v op val pos} : posGood pos → NodeOkStrict val →
      NodeOkStrict (.constraintExpr v op val pos)
  | outputSpec {name fmt pos} : posGood pos → NodeOkStrict (.outputSpec name fmt pos)
  | elementList {es pos} : posGood pos → (∀ n ∈ es, NodeOkStrict n) →
      NodeOkStrict (.elementList es pos)
  | textElement {t r pos} : posGood pos → NodeOkStrict (.textElement t r pos)
  | variableRef {n pos} : posGood pos → NodeOkStrict (.variableRef n pos)
  | functionCall {n args pos} : posGood pos → (∀ a ∈ args, NodeOkStrict a) →
      NodeOkStrict (.functionCall n args pos)
  | ifStmt {c t e pos} : posGood pos → NodeOkStrict c → (∀ n, t = some n → NodeOkStrict n) →
      (∀ n, e = some n → NodeOkStrict n) → NodeOkStrict (.ifStmt c t e pos)
  | forStmt {v it b pos} : posGood pos → NodeOkStrict it → (∀ n, b = some n → NodeOkStrict n) →
      NodeOkStrict (.forStmt v it b pos)
  | whileStmt {c b pos} : posGood pos → NodeOkStrict c → (∀ n, b = some n → NodeOkStrict n) →
      NodeOkStrict (.whileStmt c b pos)
  | binaryExpr {op l r pos} : posGood pos → (∀ n, l = some n → NodeOkStrict n) →
      (∀ n, r = some n → NodeOkStrict n) → NodeOkStrict (.binaryExpr op l r pos)
  | unaryExpr {op o pos} : posGood pos → (∀ n, o = some n → NodeOkStrict n) →
      NodeOkStrict (.unaryExpr op o pos)
  | identifier {n pos} : posGood pos → NodeOkStrict (.identifier n pos)
  | stringLiteral {v pos} : posGood pos → NodeOkStrict (.stringLiteral v pos)
  | numberLiteral {v pos} : posGood pos → NodeOkStrict (.numberLiteral v pos)
  | booleanLiteral {v pos} : posGood pos → NodeOkStrict (.booleanLiteral v pos)

inductive NodeOk : ASTNode → Prop where
  | program {stmts} : (∀ n ∈ stmts, NodeOk n) → NodeOk (.program stmts)
  | promptDef {name body pos} : posGood pos → (∀ n, body = some n → NodeOk n) →
      NodeOk (.promptDef name body pos)
  | varDecl {name init pos} : posGood pos → NodeOk init → NodeOk (.varDecl name init pos)
  | templateDef {name ps body pos} : posGood pos → (∀ n, body = some n → NodeOk n) →
      NodeOk (.templateDef name ps body pos)
  | constraintDef {name cs pos} : posGood pos → (∀ n ∈ cs, NodeOk n) →
      NodeOk (.constraintDef name cs pos)
  | constraintExpr {v op val pos} : posGood pos → NodeOk val →
      NodeOk (.constraintExpr v op val pos)
  | outputSpec {name fmt pos} : posGood pos → NodeOk (.outputSpec name fmt pos)
  | elementList {es pos} : (∀ n ∈ es, NodeOk n) → NodeOk (.elementList es pos)
  | textElement {t r pos} : posGood pos → NodeOk (.textElement t r pos)
  | variableRef {n pos} : posGood pos → NodeOk (.variableRef n pos)
  | functionCall {n args pos} : posGood pos → (∀ a ∈ args, NodeOk a) →
      NodeOk (.functionCall n args pos)
  | ifStmt {c t e pos} : posGood pos → NodeOk c → (∀ n, t = some n → NodeOk n) →
      (∀ n, e = some n → NodeOk n) → NodeOk (.ifStmt c t e pos)
  | forStmt {v it b pos} : posGood pos → NodeOk it → (∀ n, b = some n → NodeOk n) →
      NodeOk (.forStmt v it b pos)
  | whileStmt {c b pos} : posGood pos → NodeOk c → (∀ n, b = some n → NodeOk n) →
      NodeOk (.whileStmt c b pos)
  | binaryExpr {op l r pos} : posGood pos → (∀ n, l = some n → NodeOk n) →
      (∀ n, r = some n → NodeOk n) → NodeOk (.binaryExpr op l r pos)
  | unaryExpr {op o pos} : posGood pos → (∀ n, o = some n → NodeOk n) →
      NodeOk (.unaryExpr op o pos)
  | identifier {n pos} : posGood pos → NodeOk (.identifier n pos)
  | stringLiteral {v pos} : posGood pos → NodeOk (.stringLiteral v pos)
  | numberLiteral {v pos} : posGood pos → NodeOk (.numberLiteral v pos)
  | booleanLiteral {v pos} : posGood pos → NodeOk (.booleanLiteral v pos)

/-- Goodness of an optional node pointer. -/
def OptOk (o : Option ASTNode) : Prop := ∀ n, o = some n → NodeOk n

theorem optOk_none : OptOk none := fun n h => by cases h

theorem optOk_some {n : ASTNode} (h : NodeOk n) : OptOk (some n) := fun m hm => by
  cases hm
  exact h

/-- The node-goodness payload each call kind guarantees about its result
(conditional, for loop bodies, on the goodness of the accumulator passed in). -/
def callOk (c : Call) (r : Out) : Prop :=
  match c, r with
  | .programLoopFn stmts, .nodes out => (∀ n ∈ stmts, NodeOk n) → ∀ n ∈ out, NodeOk n
  | .elemListLoopFn elems, .nodes out => (∀ n ∈ elems, NodeOk n) → ∀ n ∈ out, NodeOk n
  | .constraintLoopFn cs, .nodes out => (∀ n ∈ cs, NodeOk n) → ∀ n ∈ out, NodeOk n
  | .argsLoopFn args, .nodes out => (∀ n ∈ args, NodeOk n) → ∀ n ∈ out, NodeOk n
  | .orLoopFn left, .node o => OptOk left → OptOk o
  | .andLoopFn left, .node o => OptOk left → OptOk o
  | .eqLoopFn left, .node o => OptOk left → OptOk o
  | .cmpLoopFn left, .node o => OptOk left → OptOk o
  | .termLoopFn left, .node o => OptOk left → OptOk o
  | .factorLoopFn left, .node o => OptOk left → OptOk o
  | .syncFn, _ => True
  | .paramsLoopFn _, _ => True
  | _, .node o => OptOk o
  | _, _ => True

/-- The full invariant of a converging run: tokens and failure set are
unchanged, errors only grow, well-formedness is preserved, and (on
well-formed input) the result nodes carry one-based positions. -/
def RInv (c : Call) (p : Parser) (r : Out) (q : Parser) : Prop :=
  Pres p q ∧ (goodState p → callOk c r)

theorem pres_good {p q : Parser} (h : Pres p q) : goodState p → goodState q := h.2.2.2

theorem pres_consume_eq {p q : Parser} {ty : TokenType} {m : String} {tk : Option Token}
    (h : parser_consume p ty m = (tk, q)) : Pres p q := by
  have hp := pres_consume p ty m
  rw [h] at hp
  exact hp

theorem pres_match_eq {p q : Parser} {ty : TokenType} {b : Bool}
    (h : parser_match p ty = (b, q)) : Pres p q := by
  have hp := pres_match p ty
  rw [h] at hp
  exact hp

theorem pres_match2 (p : Parser) (ty1 ty2 : TokenType) :
    Pres p (if (parser_match p ty1).1 then parser_match p ty1
            else parser_match (parser_match p ty1).2 ty2).2 := by
  by_cases h1 : (parser_match p ty1).1 = true
  · rw [if_pos h1]
    exact pres_match _ _
  · rw [if_neg h1]
    exact pres_trans (pres_match _ _) (pres_match _ _)

theorem pres_match3 (p : Parser) (ty1 ty2 ty3 : TokenType) :
    Pres p (if (if (parser_match p ty1).1 then parser_match p ty1
                else parser_match (parser_match p ty1).2 ty2).1 then
              (if (parser_match p ty1).1 then parser_match p ty1
               else parser_match (parser_match p ty1).2 ty2)
            else parser_match (if (parser_match p ty1).1 then parser_match p ty1
                else parser_match (parser_match p ty1).2 ty2).2 ty3).2 := by
  by_cases h1 : (parser_match p ty1).1 = true
  · rw [if_pos h1, if_pos h1]
    exact pres_match _ _
  · rw [if_neg h1]
    exact pres_trans (pres_match _ _) (pres_match2 _ _ _)

theorem pres_match4 (p : Parser) (ty1 ty2 ty3 ty4 : TokenType) :
    Pres p (if (if (if (parser_match p ty1).1 then parser_match p ty1
                    else parser_match (parser_match p ty1).2 ty2).1 then
                  (if (parser_match p ty1).1 then parser_match p ty1
                   else parser_match (parser_match p ty1).2 ty2)
                else parser_match (if (parser_match p ty1).1 then parser_match p ty1
                    else parser_match (parser_match p ty1).2 ty2).2 ty3).1 then
              (if (if (parser_match p ty1).1 then parser_match p ty1
                    else parser_match (parser_match p ty1).2 ty2).1 then
                  (if (parser_match p ty1).1 then parser_match p ty1
                   else parser_match (parser_match p ty1).2 ty2)
                else parser_match (if (parser_match p ty1).1 then parser_match p ty1
                    else parser_match (parser_match p ty1).2 ty2).2 ty3)
            else parser_match (if (if (parser_match p ty1).1 then parser_match p ty1
                    else parser_match (parser_match p ty1).2 ty2).1 then
                  (if (parser_match p ty1).1 then parser_match p ty1
                   else parser_match (parser_match p ty1).2 ty2)
                else parser_match (if (parser_match p ty1).1 then parser_match p ty1
                    else parser_match (parser_match p ty1).2 ty2).2 ty3).2 ty4).2 := by
  by_cases h1 : (parser_match p ty1).1 = true
  · rw [if_pos h1, if_pos h1, if_pos h1]
    exact pres_match _ _
  · rw [if_neg h1]
    exact pres_trans (pres_match _ _) (pres_match3 _ _ _ _)

theorem bindNode_ok {x : PR Out} {k : Option ASTNode → Parser → PR Out} {r : Out} {q : Parser}
    (h : bindNode x k = .ok r q) :
    ∃ nd pm, x = .ok (.node nd) pm ∧ k nd pm = .ok r q := by
  cases x with
  | div => simp [bindNode] at h
  | ok out pm =>
    cases out with
    | node nd => exact ⟨nd, pm, rfl, h⟩
    | nodes ns => simp [bindNode] at h
    | names ns => simp [bindNode] at h
    | unit => simp [bindNode] at h

theorem bindNodes_ok {x : PR Out} {k : List ASTNode → Parser → PR Out} {r : Out} {q : Parser}
    (h : bindNodes x k = .ok r q) :
    ∃ ns pm, x = .ok (.nodes ns) pm ∧ k ns pm = .ok r q := by
  cases x with
  | div => simp [bindNodes] at h
  | ok out pm =>
    cases out with
    | node nd => simp [bindNodes] at h
    | nodes ns => exact ⟨ns, pm, rfl, h⟩
    | names ns => simp [bindNodes] at h
    | unit => simp [bindNodes] at h

theorem bindNames_ok {x : PR Out} {k : List String → Parser → PR Out} {r : Out} {q : Parser}
    (h : bindNames x k = .ok r q) :
    ∃ ns pm, x = .ok (.names ns) pm ∧ k ns pm = .ok r q := by
  cases x with
  | div => simp [bindNames] at h
  | ok out pm =>
    cases out with
    | node nd => simp [bindNames] at h
    | nodes ns => simp [bindNames] at h
    | names ns => exact ⟨ns, pm, rfl, h⟩
    | unit => simp [bindNames] at h

theorem bindUnit_ok {x : PR Out} {k : Parser → PR Out} {r : Out} {q : Parser}
    (h : bindUnit x k = .ok r q) :
    ∃ pm, x = .ok .unit pm ∧ k pm = .ok r q := by
  cases x with
  | div => simp [bindUnit] at h
  | ok out pm =>
    cases out with
    | node nd => simp [bindUnit] at h
    | nodes ns => simp [bindUnit] at h
    | names ns => simp [bindUnit] at h
    | unit => exact ⟨pm, rfl, h⟩

/-- Every converging parsing call preserves the session state: tokens and
the allocation failure set are unchanged, the error list only grows, and
well-formedness of the session is kept. -/
theorem run_pres : ∀ fuel c p r q, run fuel c p = .ok r q → Pres p q := by
  intro fuel
  induction fuel with
  | zero => intro c p r q h; exact PR.noConfusion h
  | succ fuel ih =>
    intro c p r q h
    replace h : step (run fuel) c p = .ok r q := h
    cases c with
    | programFn =>
      simp only [step] at h
      split at h
      · injection h with h1 h2; subst h2; exact pres_arrayCreate p
      · obtain ⟨ns, p1, hrun, h⟩ := bindNodes_ok h
        injection h with h1 h2; subst h2
        exact pres_trans (pres_arrayCreate p)
          (pres_trans (ih _ _ _ _ hrun) (pres_allocNode _ _))
    | programLoopFn stmts =>
      simp only [step] at h
      split at h
      · obtain ⟨stmt, p1, hrun, h⟩ := bindNode_ok h
        cases stmt with
        | some s => exact pres_trans (ih _ _ _ _ hrun) (ih _ _ _ _ h)
        | none =>
          obtain ⟨p2, hrun2, h⟩ := bindUnit_ok h
          exact pres_trans (ih _ _ _ _ hrun)
            (pres_trans (ih _ _ _ _ hrun2) (ih _ _ _ _ h))
      · injection h with h1 h2; subst h2; exact pres_refl p
    | syncFn =>
      simp only [step] at h
      split at h
      · exact pres_trans (pres_advance p) (ih _ _ _ _ h)
      · injection h with h1 h2; subst h2; exact pres_refl p
    | statementFn =>
      simp only [step] at h
      split at h
      · injection h with h1 h2; subst h2; exact pres_refl p
      · split at h <;>
          first
          | exact ih _ _ _ _ h
          | (injection h with h1 h2; subst h2; exact pres_error p _)
    | promptDefFn =>
      simp only [step] at h
      split at h
      · injection h with h1 h2; subst h2
        next heq1 => exact pres_consume_eq heq1
      · next tk1 p1 heq1 =>
        split at h
        · injection h with h1 h2; subst h2
          next heq2 => exact pres_trans (pres_consume_eq heq1) (pres_consume_eq heq2)
        · next tk2 p2 heq2 =>
          obtain ⟨body, p4, hrun, h⟩ := bindNode_ok h
          injection h with h1 h2; subst h2
          exact pres_trans (pres_consume_eq heq1) (pres_trans (pres_consume_eq heq2)
            (pres_trans (pres_consume _ _ _) (pres_trans (ih _ _ _ _ hrun)
              (pres_trans (pres_consume _ _ _) (pres_allocNode _ _)))))
    | varDeclFn =>
      simp only [step] at h
      split at h
      · injection h with h1 h2; subst h2
        next heq1 => exact pres_consume_eq heq1
      · next tk1 p1 heq1 =>
        split at h
        · injection h with h1 h2; subst h2
          next heq2 => exact pres_trans (pres_consume_eq heq1) (pres_consume_eq heq2)
        · next tk2 p2 heq2 =>
          obtain ⟨ini, p4, hrun, h⟩ := bindNode_ok h
          cases ini with
          | none =>
            injection h with h1 h2; subst h2
            exact pres_trans (pres_consume_eq heq1) (pres_trans (pres_consume_eq heq2)
              (pres_trans (pres_consume _ _ _) (pres_trans (ih _ _ _ _ hrun)
                (pres_error _ _))))
          | some ini =>
            injection h with h1 h2; subst h2
            exact pres_trans (pres_consume_eq heq1) (pres_trans (pres_consume_eq heq2)
              (pres_trans (pres_consume _ _ _) (pres_trans (ih _ _ _ _ hrun)
                (pres_trans (pres_consume _ _ _) (pres_allocNode _ _)))))
    | templateDefFn =>
      simp only [step] at h
      split at h
      · injection h with h1 h2; subst h2
        next heq1 => exact pres_consume_eq heq1
      · next tk1 p1 heq1 =>
        split at h
        · injection h with h1 h2; subst h2
          next heq2 => exact pres_trans (pres_consume_eq heq1) (pres_consume_eq heq2)
        · next tk2 p2 heq2 =>
          split at h
          · injection h with h1 h2; subst h2
            exact pres_trans (pres_consume_eq heq1) (pres_trans (pres_consume_eq heq2)
              (pres_trans (pres_consume _ _ _) (pres_arrayCreate _)))
          · split at h
            · obtain ⟨ps, p5, hrunP, h⟩ := bindNames_ok h
              obtain ⟨body, p7, hrunB, h⟩ := bindNode_ok h
              injection h with h1 h2; subst h2
              exact pres_trans (pres_consume_eq heq1) (pres_trans (pres_consume_eq heq2)
                (pres_trans (pres_consume _ _ _) (pres_trans (pres_arrayCreate _)
                  (pres_trans (ih _ _ _ _ hrunP) (pres_trans (pres_consume _ _ _)
                    (pres_trans (pres_consume _ _ _) (pres_trans (ih _ _ _ _ hrunB)
                      (pres_trans (pres_consume _ _ _) (pres_allocNode _ _)))))))))
            · obtain ⟨body, p7, hrunB, h⟩ := bindNode_ok h
              injection h with h1 h2; subst h2
              exact pres_trans (pres_consume_eq heq1) (pres_trans (pres_consume_eq heq2)
                (pres_trans (pres_consume _ _ _) (pres_trans (pres_arrayCreate _)
                  (pres_trans (pres_consume _ _ _) (pres_trans (pres_consume _ _ _)
                    (pres_trans (ih _ _ _ _ hrunB)
                      (pres_trans (pres_consume _ _ _) (pres_allocNode _ _))))))))
    | paramsLoopFn ps =>
      simp only [step] at h
      split at h
      · exact pres_trans (pres_consume _ _ _) (pres_trans (pres_match _ _) (ih _ _ _ _ h))
      · injection h with h1 h2; subst h2
        exact pres_trans (pres_consume _ _ _) (pres_match _ _)
    | constraintDefFn =>
      simp only [step] at h
      split at h
      · injection h with h1 h2; subst h2
        next heq1 => exact pres_consume_eq heq1
      · next tk1 p1 heq1 =>
        split at h
        · injection h with h1 h2; subst h2
          next heq2 => exact pres_trans (pres_consume_eq heq1) (pres_consume_eq heq2)
        · next tk2 p2 heq2 =>
          split at h
          · injection h with h1 h2; subst h2
            exact pres_trans (pres_consume_eq heq1) (pres_trans (pres_consume_eq heq2)
              (pres_trans (pres_consume _ _ _) (pres_arrayCreate _)))
          · obtain ⟨cs, p5, hrun, h⟩ := bindNodes_ok h
            injection h with h1 h2; subst h2
            exact pres_trans (pres_consume_eq heq1) (pres_trans (pres_consume_eq heq2)
              (pres_trans (pres_consume _ _ _) (pres_trans (pres_arrayCreate _)
                (pres_trans (ih _ _ _ _ hrun) (pres_trans (pres_consume _ _ _)
                  (pres_allocNode _ _))))))
    | constraintLoopFn cs =>
      simp only [step] at h
      split at h
      · obtain ⟨c1, p1, hrun, h⟩ := bindNode_ok h
        exact pres_trans (ih _ _ _ _ hrun)
          (pres_trans (pres_consume _ _ _) (ih _ _ _ _ h))
      · injection h with h1 h2; subst h2; exact pres_refl p
    | constraintExprFn =>
      simp only [step] at h
      split at h
      · injection h with h1 h2; subst h2
        next heq1 => exact pres_consume_eq heq1
      · next tk1 p1 heq1 =>
        split at h
        · injection h with h1 h2; subst h2; exact pres_consume_eq heq1
        · next opTok heqcur =>
          split at h
          · injection h with h1 h2; subst h2
            exact pres_trans (pres_consume_eq heq1) (pres_error _ _)
          · next opType heqop =>
            obtain ⟨v, p3, hrun, h⟩ := bindNode_ok h
            cases v with
            | none =>
              injection h with h1 h2; subst h2
              exact pres_trans (pres_consume_eq heq1) (pres_trans (pres_advance _)
                (pres_trans (ih _ _ _ _ hrun) (pres_error _ _)))
            | some v =>
              injection h with h1 h2; subst h2
              exact pres_trans (pres_consume_eq heq1) (pres_trans (pres_advance _)
                (pres_trans (ih _ _ _ _ hrun) (pres_allocNode _ _)))
    | outputSpecFn =>
      simp only [step] at h
      split at h
      · injection h with h1 h2; subst h2
        next heq1 => exact pres_consume_eq heq1
      · next tk1 p1 heq1 =>
        split at h
        · injection h with h1 h2; subst h2
          next heq2 => exact pres_trans (pres_consume_eq heq1) (pres_consume_eq heq2)
        · next tk2 p2 heq2 =>
          split at h
          · split at h
            · split at h
              · injection h with h1 h2; subst h2
                exact pres_trans (pres_consume_eq heq1) (pres_trans (pres_consume_eq heq2)
                  (pres_trans (pres_consume _ _ _) (pres_trans (pres_match _ _)
                    (pres_trans (pres_consume _ _ _) (pres_allocNode _ _)))))
              · split at h
                · injection h with h1 h2; subst h2
                  exact pres_trans (pres_consume_eq heq1) (pres_trans (pres_consume_eq heq2)
                    (pres_trans (pres_consume _ _ _) (pres_trans (pres_match _ _)
                      (pres_trans (pres_consume _ _ _) (pres_allocNode _ _)))))
                · split at h
                  · injection h with h1 h2; subst h2
                    exact pres_trans (pres_consume_eq heq1) (pres_trans (pres_consume_eq heq2)
                      (pres_trans (pres_consume _ _ _) (pres_trans (pres_match _ _)
                        (pres_trans (pres_consume _ _ _) (pres_allocNode _ _)))))
                  · injection h with h1 h2; subst h2
                    exact pres_trans (pres_consume_eq heq1) (pres_trans (pres_consume_eq heq2)
                      (pres_trans (pres_consume _ _ _) (pres_trans (pres_match _ _)
                        (pres_trans (pres_error _ _) (pres_trans (pres_consume _ _ _)
                          (pres_allocNode _ _))))))
            · injection h with h1 h2; subst h2
              exact pres_trans (pres_consume_eq heq1) (pres_trans (pres_consume_eq heq2)
                (pres_trans (pres_consume _ _ _) (pres_trans (pres_match _ _)
                  (pres_trans (pres_consume _ _ _) (pres_allocNode _ _)))))
          · injection h with h1 h2; subst h2
            exact pres_trans (pres_consume_eq heq1) (pres_trans (pres_consume_eq heq2)
              (pres_trans (pres_consume _ _ _) (pres_trans (pres_match _ _)
                (pres_trans (pres_consume _ _ _) (pres_allocNode _ _)))))
    | elementListFn =>
      simp only [step] at h
      split at h
      · injection h with h1 h2; subst h2; exact pres_arrayCreate p
      · obtain ⟨elems, p1, hrun, h⟩ := bindNodes_ok h
        injection h with h1 h2; subst h2
        exact pres_trans (pres_arrayCreate p)
          (pres_trans (ih _ _ _ _ hrun) (pres_allocNode _ _))
    | elemListLoopFn elems =>
      simp only [step] at h
      split at h
      · obtain ⟨el, p1, hrun, h⟩ := bindNode_ok h
        exact pres_trans (ih _ _ _ _ hrun) (ih _ _ _ _ h)
      · injection h with h1 h2; subst h2; exact pres_refl p
    | elementFn =>
      simp only [step] at h
      split at h
      · injection h with h1 h2; subst h2; exact pres_refl p
      · split at h <;> exact ih _ _ _ _ h
    | textElementFn isRaw =>
      simp only [step] at h
      split at h
      · injection h with h1 h2; subst h2; exact pres_refl p
      · split at h
        · injection h with h1 h2; subst h2
          next heq1 => exact pres_consume_eq heq1
        · next st p1 heq1 =>
          injection h with h1 h2; subst h2
          exact pres_trans (pres_consume_eq heq1) (pres_allocNode _ _)
    | variableElementFn =>
      simp only [step] at h
      split at h
      · injection h with h1 h2; subst h2
        next heq1 => exact pres_consume_eq heq1
      · next tk p1 heq1 =>
        injection h with h1 h2; subst h2
        exact pres_trans (pres_consume_eq heq1) (pres_allocNode _ _)
    | templateElementFn =>
      simp only [step] at h
      split at h
      · injection h with h1 h2; subst h2
        next heq1 => exact pres_consume_eq heq1
      · next tk p1 heq1 =>
        split at h
        · injection h with h1 h2; subst h2
          exact pres_trans (pres_consume_eq heq1)
            (pres_trans (pres_consume _ _ _) (pres_arrayCreate _))
        · split at h
          · obtain ⟨args, p3, hrunA, h⟩ := bindNodes_ok h
            injection h with h1 h2; subst h2
            exact pres_trans (pres_consume_eq heq1) (pres_trans (pres_consume _ _ _)
              (pres_trans (pres_arrayCreate _) (pres_trans (ih _ _ _ _ hrunA)
                (pres_trans (pres_consume _ _ _) (pres_allocNode _ _)))))
          · injection h with h1 h2; subst h2
            exact pres_trans (pres_consume_eq heq1) (pres_trans (pres_consume _ _ _)
              (pres_trans (pres_arrayCreate _)
                (pres_trans (pres_consume _ _ _) (pres_allocNode _ _))))
    | argsLoopFn args =>
      simp only [step] at h
      obtain ⟨arg, p1, hrun, h⟩ := bindNode_ok h
      split at h
      · exact pres_trans (ih _ _ _ _ hrun) (pres_trans (pres_match _ _) (ih _ _ _ _ h))
      · injection h with h1 h2; subst h2
        exact pres_trans (ih _ _ _ _ hrun) (pres_match _ _)
    | ifStmtFn =>
      simp only [step] at h
      split at h
      · injection h with h1 h2; subst h2
        next heq1 => exact pres_consume_eq heq1
      · next tk1 p1 heq1 =>
        obtain ⟨cond, p2, hrunC, h⟩ := bindNode_ok h
        cases cond with
        | none =>
          injection h with h1 h2; subst h2
          exact pres_trans (pres_consume_eq heq1)
            (pres_trans (ih _ _ _ _ hrunC) (pres_error _ _))
        | some c =>
          obtain ⟨tb, p4, hrunT, h⟩ := bindNode_ok h
          split at h
          · obtain ⟨eb, p7, hrunE, h⟩ := bindNode_ok h
            injection h with h1 h2; subst h2
            exact pres_trans (pres_consume_eq heq1) (pres_trans (ih _ _ _ _ hrunC)
              (pres_trans (pres_consume _ _ _) (pres_trans (ih _ _ _ _ hrunT)
                (pres_trans (pres_consume _ _ _) (pres_trans (pres_match _ _)
                  (pres_trans (pres_consume _ _ _) (pres_trans (ih _ _ _ _ hrunE)
                    (pres_trans (pres_consume _ _ _) (pres_allocNode _ _)))))))))
          · injection h with h1 h2; subst h2
            exact pres_trans (pres_consume_eq heq1) (pres_trans (ih _ _ _ _ hrunC)
              (pres_trans (pres_consume _ _ _) (pres_trans (ih _ _ _ _ hrunT)
                (pres_trans (pres_consume _ _ _) (pres_trans (pres_match _ _)
                  (pres_allocNode _ _))))))
    | forStmtFn =>
      simp only [step] at h
      split at h
      · injection h with h1 h2; subst h2
        next heq1 => exact pres_consume_eq heq1
      · next tk1 p1 heq1 =>
        split at h
        · injection h with h1 h2; subst h2
          next heq2 => exact pres_trans (pres_consume_eq heq1) (pres_consume_eq heq2)
        · next tk2 p2 heq2 =>
          obtain ⟨iter, p4, hrunI, h⟩ := bindNode_ok h
          cases iter with
          | none =>
            injection h with h1 h2; subst h2
            exact pres_trans (pres_consume_eq heq1) (pres_trans (pres_consume_eq heq2)
              (pres_trans (pres_consume _ _ _) (pres_trans (ih _ _ _ _ hrunI)
                (pres_error _ _))))
          | some iter =>
            obtain ⟨body, p6, hrunB, h⟩ := bindNode_ok h
            injection h with h1 h2; subst h2
            exact pres_trans (pres_consume_eq heq1) (pres_trans (pres_consume_eq heq2)
              (pres_trans (pres_consume _ _ _) (pres_trans (ih _ _ _ _ hrunI)
                (pres_trans (pres_consume _ _ _) (pres_trans (ih _ _ _ _ hrunB)
                  (pres_trans (pres_consume _ _ _) (pres_allocNode _ _)))))))
    | whileStmtFn =>
      simp only [step] at h
      split at h
      · injection h with h1 h2; subst h2
        next heq1 => exact pres_consume_eq heq1
      · next tk1 p1 heq1 =>
        obtain ⟨cond, p2, hrunC, h⟩ := bindNode_ok h
        cases cond with
        | none =>
          injection h with h1 h2; subst h2
          exact pres_trans (pres_consume_eq heq1)
            (pres_trans (ih _ _ _ _ hrunC) (pres_error _ _))
        | some c =>
          obtain ⟨body, p4, hrunB, h⟩ := bindNode_ok h
          injection h with h1 h2; subst h2
          exact pres_trans (pres_consume_eq heq1) (pres_trans (ih _ _ _ _ hrunC)
            (pres_trans (pres_consume _ _ _) (pres_trans (ih _ _ _ _ hrunB)
              (pres_trans (pres_consume _ _ _) (pres_allocNode _ _)))))
    | expressionFn =>
      simp only [step] at h
      exact ih _ _ _ _ h
    | logicalOrFn =>
      simp only [step] at h
      obtain ⟨left, p1, hrun, h⟩ := bindNode_ok h
      exact pres_trans (ih _ _ _ _ hrun) (ih _ _ _ _ h)
    | orLoopFn left =>
      simp only [step] at h
      split at h
      · obtain ⟨right, p2, hrun, h⟩ := bindNode_ok h
        exact pres_trans (pres_match _ _) (pres_trans (ih _ _ _ _ hrun)
          (pres_trans (pres_allocNode _ _) (ih _ _ _ _ h)))
      · injection h with h1 h2; subst h2; exact pres_match _ _
    | logicalAndFn =>
      simp only [step] at h
      obtain ⟨left, p1, hrun, h⟩ := bindNode_ok h
      exact pres_trans (ih _ _ _ _ hrun) (ih _ _ _ _ h)
    | andLoopFn left =>
      simp only [step] at h
      split at h
      · obtain ⟨right, p2, hrun, h⟩ := bindNode_ok h
        exact pres_trans (pres_match _ _) (pres_trans (ih _ _ _ _ hrun)
          (pres_trans (pres_allocNode _ _) (ih _ _ _ _ h)))
      · injection h with h1 h2; subst h2; exact pres_match _ _
    | equalityFn =>
      simp only [step] at h
      obtain ⟨left, p1, hrun, h⟩ := bindNode_ok h
      exact pres_trans (ih _ _ _ _ hrun) (ih _ _ _ _ h)
    | eqLoopFn left =>
      simp only [step] at h
      split at h
      · obtain ⟨right, p2, hrun, h⟩ := bindNode_ok h
        exact pres_trans (pres_match _ _) (pres_trans (ih _ _ _ _ hrun)
          (pres_trans (pres_allocNode _ _) (ih _ _ _ _ h)))
      · split at h
        · obtain ⟨right, p2, hrun, h⟩ := bindNode_ok h
          exact pres_trans (pres_match _ _) (pres_trans (pres_match _ _)
            (pres_trans (ih _ _ _ _ hrun) (pres_trans (pres_allocNode _ _) (ih _ _ _ _ h))))
        · injection h with h1 h2; subst h2
          exact pres_trans (pres_match _ _) (pres_match _ _)
    | comparisonFn =>
      simp only [step] at h
      obtain ⟨left, p1, hrun, h⟩ := bindNode_ok h
      exact pres_trans (ih _ _ _ _ hrun) (ih _ _ _ _ h)
    | cmpLoopFn left =>
      simp only [step] at h
      split at h
      · obtain ⟨right, p2, hrun, h⟩ := bindNode_ok h
        exact pres_trans (pres_match _ _) (pres_trans (ih _ _ _ _ hrun)
          (pres_trans (pres_allocNode _ _) (ih _ _ _ _ h)))
      · split at h
        · obtain ⟨right, p2, hrun, h⟩ := bindNode_ok h
          exact pres_trans (pres_match _ _) (pres_trans (pres_match _ _)
            (pres_trans (ih _ _ _ _ hrun) (pres_trans (pres_allocNode _ _) (ih _ _ _ _ h))))
        · split at h
          · obtain ⟨right, p2, hrun, h⟩ := bindNode_ok h
            exact pres_trans (pres_match _ _) (pres_trans (pres_match _ _)
              (pres_trans (pres_match _ _) (pres_trans (ih _ _ _ _ hrun)
                (pres_trans (pres_allocNode _ _) (ih _ _ _ _ h)))))
          · split at h
            · obtain ⟨right, p2, hrun, h⟩ := bindNode_ok h
              exact pres_trans (pres_match _ _) (pres_trans (pres_match _ _)
                (pres_trans (pres_match _ _) (pres_trans (pres_match _ _)
                  (pres_trans (ih _ _ _ _ hrun)
                    (pres_trans (pres_allocNode _ _) (ih _ _ _ _ h))))))
            · injection h with h1 h2; subst h2
              exact pres_trans (pres_match _ _) (pres_trans (pres_match _ _)
                (pres_trans (pres_match _ _) (pres_match _ _)))
    | termFn =>
      simp only [step] at h
      obtain ⟨left, p1, hrun, h⟩ := bindNode_ok h
      exact pres_trans (ih _ _ _ _ hrun) (ih _ _ _ _ h)
    | termLoopFn left =>
      simp only [step] at h
      split at h
      · obtain ⟨right, p2, hrun, h⟩ := bindNode_ok h
        exact pres_trans (pres_match _ _) (pres_trans (ih _ _ _ _ hrun)
          (pres_trans (pres_allocNode _ _) (ih _ _ _ _ h)))
      · split at h
        · obtain ⟨right, p2, hrun, h⟩ := bindNode_ok h
          exact pres_trans (pres_match _ _) (pres_trans (pres_match _ _)
            (pres_trans (ih _ _ _ _ hrun) (pres_trans (pres_allocNode _ _) (ih _ _ _ _ h))))
        · injection h with h1 h2; subst h2
          exact pres_trans (pres_match _ _) (pres_match _ _)
    | factorFn =>
      simp only [step] at h
      obtain ⟨left, p1, hrun, h⟩ := bindNode_ok h
      exact pres_trans (ih _ _ _ _ hrun) (ih _ _ _ _ h)
    | factorLoopFn left =>
      simp only [step] at h
      split at h
      · obtain ⟨right, p2, hrun, h⟩ := bindNode_ok h
        exact pres_trans (pres_match _ _) (pres_trans (ih _ _ _ _ hrun)
          (pres_trans (pres_allocNode _ _) (ih _ _ _ _ h)))
      · split at h
        · obtain ⟨right, p2, hrun, h⟩ := bindNode_ok h
          exact pres_trans (pres_match _ _) (pres_trans (pres_match _ _)
            (pres_trans (ih _ _ _ _ hrun) (pres_trans (pres_allocNode _ _) (ih _ _ _ _ h))))
        · split at h
          · obtain ⟨right, p2, hrun, h⟩ := bindNode_ok h
            exact pres_trans (pres_match _ _) (pres_trans (pres_match _ _)
              (pres_trans (pres_match _ _) (pres_trans (ih _ _ _ _ hrun)
                (pres_trans (pres_allocNode _ _) (ih _ _ _ _ h)))))
          · injection h with h1 h2; subst h2
            exact pres_trans (pres_match _ _) (pres_trans (pres_match _ _) (pres_match _ _))
    | powerFn =>
      simp only [step] at h
      obtain ⟨left, p1, hrun, h⟩ := bindNode_ok h
      split at h
      · obtain ⟨right, p3, hrun2, h⟩ := bindNode_ok h
        injection h with h1 h2; subst h2
        exact pres_trans (ih _ _ _ _ hrun) (pres_trans (pres_match _ _)
          (pres_trans (ih _ _ _ _ hrun2) (pres_allocNode _ _)))
      · injection h with h1 h2; subst h2
        exact pres_trans (ih _ _ _ _ hrun) (pres_match _ _)
    | unaryFn =>
      simp only [step] at h
      split at h
      · obtain ⟨operand, p2, hrun, h⟩ := bindNode_ok h
        injection h with h1 h2; subst h2
        exact pres_trans (pres_match _ _)
          (pres_trans (ih _ _ _ _ hrun) (pres_allocNode _ _))
      · split at h
        · obtain ⟨operand, p2, hrun, h⟩ := bindNode_ok h
          injection h with h1 h2; subst h2
          exact pres_trans (pres_match _ _) (pres_trans (pres_match _ _)
            (pres_trans (ih _ _ _ _ hrun) (pres_allocNode _ _)))
        · exact pres_trans (pres_match _ _) (pres_trans (pres_match _ _) (ih _ _ _ _ h))
    | primaryFn =>
      simp only [step] at h
      split at h
      · injection h with h1 h2; subst h2; exact pres_refl p
      · split at h <;>
          first
          | (injection h with h1 h2; subst h2;
             exact pres_trans (pres_advance _) (pres_allocNode _ _))
          | (obtain ⟨expr, p2, hrun, h⟩ := bindNode_ok h;
             injection h with h1 h2; subst h2;
             exact pres_trans (pres_advance _)
               (pres_trans (ih _ _ _ _ hrun) (pres_consume _ _ _)))
          | (injection h with h1 h2; subst h2; exact pres_error _ _)

theorem optOk_alloc {n : ASTNode} (p : Parser) (hok : NodeOk n) : OptOk (allocNode n p).1 := by
  rcases allocNode_fst_cases n p with hc | hc <;> rw [hc]
  · exact optOk_some hok
  · exact optOk_none

theorem nodesOk_nil : ∀ n ∈ ([] : List ASTNode), NodeOk n :=
  fun n hn => absurd hn (List.not_mem_nil n)

theorem nodesOk_append {xs : List ASTNode} {a : ASTNode}
    (hxs : ∀ n ∈ xs, NodeOk n) (ha : NodeOk a) : ∀ n ∈ xs ++ [a], NodeOk n := by
  intro n hn
  rcases List.mem_append.1 hn with hn | hn
  · exact hxs n hn
  · rw [List.mem_singleton.1 hn]
    exact ha

/-- On a well-formed session, every converging parsing call returns
position-good nodes (in the sense of `callOk`). -/
theorem run_callOk : ∀ fuel c p r q, run fuel c p = .ok r q → goodState p → callOk c r := by
  intro fuel
  induction fuel with
  | zero => intro c p r q h hg; exact PR.noConfusion h
  | succ fuel ih =>
    intro c p r q h hg
    replace h : step (run fuel) c p = .ok r q := h
    cases c with
    | programFn =>
      simp only [step] at h
      split at h
      · injection h with h1 h2; subst h1; exact optOk_none
      · obtain ⟨ns, p1, hrun, h⟩ := bindNodes_ok h
        injection h with h1 h2; subst h1
        have hg1 : goodState (pcc_array_create p).2 := pres_good (pres_arrayCreate p) hg
        have hns : ∀ n ∈ ns, NodeOk n := ih _ _ _ _ hrun hg1 nodesOk_nil
        exact optOk_alloc _ (NodeOk.program hns)
    | programLoopFn stmts =>
      simp only [step] at h
      split at h
      · obtain ⟨stmt, p1, hrun, h⟩ := bindNode_ok h
        have hg1 : goodState p1 := pres_good (run_pres _ _ _ _ _ hrun) hg
        cases stmt with
        | some s =>
          have hcall := ih _ _ _ _ h hg1
          cases r with
          | nodes out =>
            intro hstmts
            have hs : NodeOk s := ih _ _ _ _ hrun hg s rfl
            exact hcall (nodesOk_append hstmts hs)
          | node o => exact hcall
          | names ns => trivial
          | unit => trivial
        | none =>
          obtain ⟨p2, hrun2, h⟩ := bindUnit_ok h
          have hg2 : goodState p2 := pres_good (run_pres _ _ _ _ _ hrun2) hg1
          have hcall := ih _ _ _ _ h hg2
          cases r with
          | nodes out => exact hcall
          | node o => exact hcall
          | names ns => trivial
          | unit => trivial
      · injection h with h1 h2; subst h1
        exact fun hs => hs
    | syncFn => cases r <;> trivial
    | statementFn =>
      simp only [step] at h
      split at h
      · injection h with h1 h2; subst h1; exact optOk_none
      · split at h <;>
          first
          | (cases r with
             | node o => have hc2 := ih _ _ _ _ h hg; exact hc2
             | nodes ns => trivial
             | names ns => trivial
             | unit => trivial)
          | (injection h with h1 h2; subst h1; exact optOk_none)
    | promptDefFn =>
      simp only [step] at h
      split at h
      · injection h with h1 h2; subst h1; exact optOk_none
      · next tk1 p1 heq1 =>
        split at h
        · injection h with h1 h2; subst h1; exact optOk_none
        · next tk2 p2 heq2 =>
          obtain ⟨body, p4, hrun, h⟩ := bindNode_ok h
          injection h with h1 h2; subst h1
          have hpos : posGood tk1.position := goodState_posGood hg (consume_some heq1).1
          have hg1 : goodState p1 := pres_good (pres_consume_eq heq1) hg
          have hg2 : goodState p2 := pres_good (pres_consume_eq heq2) hg1
          have hbody : OptOk body := ih _ _ _ _ hrun (pres_good (pres_consume _ _ _) hg2)
          exact optOk_alloc _ (NodeOk.promptDef hpos hbody)
    | varDeclFn =>
      simp only [step] at h
      split at h
      · injection h with h1 h2; subst h1; exact optOk_none
      · next tk1 p1 heq1 =>
        split at h
        · injection h with h1 h2; subst h1; exact optOk_none
        · next tk2 p2 heq2 =>
          obtain ⟨ini, p4, hrun, h⟩ := bindNode_ok h
          cases ini with
          | none => injection h with h1 h2; subst h1; exact optOk_none
          | some ini =>
            injection h with h1 h2; subst h1
            have hpos : posGood tk1.position := goodState_posGood hg (consume_some heq1).1
            have hg1 : goodState p1 := pres_good (pres_consume_eq heq1) hg
            have hg2 : goodState p2 := pres_good (pres_consume_eq heq2) hg1
            have hini : NodeOk ini :=
              ih _ _ _ _ hrun (pres_good (pres_consume _ _ _) hg2) ini rfl
            exact optOk_alloc _ (NodeOk.varDecl hpos hini)
    | templateDefFn =>
      simp only [step] at h
      split at h
      · injection h with h1 h2; subst h1; exact optOk_none
      · next tk1 p1 heq1 =>
        split at h
        · injection h with h1 h2; subst h1; exact optOk_none
        · next tk2 p2 heq2 =>
          split at h
          · injection h with h1 h2; subst h1; exact optOk_none
          · have hpos : posGood tk1.position := goodState_posGood hg (consume_some heq1).1
            have hg1 : goodState p1 := pres_good (pres_consume_eq heq1) hg
            have hg2 : goodState p2 := pres_good (pres_consume_eq heq2) hg1
            have hg4 : goodState (pcc_array_create (parser_consume p2 .LPAREN "Expected \x27(\x27 after template name").2).2 :=
              pres_good (pres_arrayCreate _) (pres_good (pres_consume _ _ _) hg2)
            split at h
            · obtain ⟨ps, p5, hrunP, h⟩ := bindNames_ok h
              obtain ⟨body, p7, hrunB, h⟩ := bindNode_ok h
              injection h with h1 h2; subst h1
              have hg5 : goodState p5 := pres_good (run_pres _ _ _ _ _ hrunP) hg4
              have hbody : OptOk body :=
                ih _ _ _ _ hrunB
                  (pres_good (pres_consume _ _ _) (pres_good (pres_consume _ _ _) hg5))
              exact optOk_alloc _ (NodeOk.templateDef hpos hbody)
            · obtain ⟨body, p7, hrunB, h⟩ := bindNode_ok h
              injection h with h1 h2; subst h1
              have hbody : OptOk body :=
                ih _ _ _ _ hrunB
                  (pres_good (pres_consume _ _ _) (pres_good (pres_consume _ _ _) hg4))
              exact optOk_alloc _ (NodeOk.templateDef hpos hbody)
    | paramsLoopFn ps => cases r <;> trivial
    | constraintDefFn =>
      simp only [step] at h
      split at h
      · injection h with h1 h2; subst h1; exact optOk_none
      · next tk1 p1 heq1 =>
        split at h
        · injection h with h1 h2; subst h1; exact optOk_none
        · next tk2 p2 heq2 =>
          split at h
          · injection h with h1 h2; subst h1; exact optOk_none
          · obtain ⟨cs, p5, hrun, h⟩ := bindNodes_ok h
            injection h with h1 h2; subst h1
            have hpos : posGood tk1.position := goodState_posGood hg (consume_some heq1).1
            have hg1 : goodState p1 := pres_good (pres_consume_eq heq1) hg
            have hg2 : goodState p2 := pres_good (pres_consume_eq heq2) hg1
            have hcs : ∀ n ∈ cs, NodeOk n :=
              ih _ _ _ _ hrun
                (pres_good (pres_arrayCreate _) (pres_good (pres_consume _ _ _) hg2))
                nodesOk_nil
            exact optOk_alloc _ (NodeOk.constraintDef hpos hcs)
    | constraintLoopFn cs =>
      simp only [step] at h
      split at h
      · obtain ⟨c1, p1, hrun, h⟩ := bindNode_ok h
        have hg1 : goodState p1 := pres_good (run_pres _ _ _ _ _ hrun) hg
        have hcall := ih _ _ _ _ h (pres_good (pres_consume _ _ _) hg1)
        cases r with
        | nodes out =>
          intro hcs
          cases c1 with
          | some ce =>
            have hce : NodeOk ce := ih _ _ _ _ hrun hg ce rfl
            exact hcall (nodesOk_append hcs hce)
          | none => exact hcall hcs
        | node o => exact hcall
        | names ns => trivial
        | unit => trivial
      · injection h with h1 h2; subst h1
        exact fun hcs => hcs
    | constraintExprFn =>
      simp only [step] at h
      split at h
      · injection h with h1 h2; subst h1; exact optOk_none
      · next tk1 p1 heq1 =>
        split at h
        · injection h with h1 h2; subst h1; exact optOk_none
        · next opTok heqcur =>
          split at h
          · injection h with h1 h2; subst h1; exact optOk_none
          · next opType heqop =>
            obtain ⟨v, p3, hrun, h⟩ := bindNode_ok h
            cases v with
            | none => injection h with h1 h2; subst h1; exact optOk_none
            | some v =>
              injection h with h1 h2; subst h1
              have hpos : posGood tk1.position := goodState_posGood hg (consume_some heq1).1
              have hg1 : goodState p1 := pres_good (pres_consume_eq heq1) hg
              have hv : NodeOk v := ih _ _ _ _ hrun (pres_good (pres_advance _) hg1) v rfl
              exact optOk_alloc _ (NodeOk.constraintExpr hpos hv)
    | outputSpecFn =>
      simp only [step] at h
      split at h
      · injection h with h1 h2; subst h1; exact optOk_none
      · next tk1 p1 heq1 =>
        split at h
        · injection h with h1 h2; subst h1; exact optOk_none
        · next tk2 p2 heq2 =>
          have hpos : posGood tk1.position := goodState_posGood hg (consume_some heq1).1
          split at h
          · split at h
            · split at h
              · injection h with h1 h2; subst h1
                exact optOk_alloc _ (NodeOk.outputSpec hpos)
              · split at h
                · injection h with h1 h2; subst h1
                  exact optOk_alloc _ (NodeOk.outputSpec hpos)
                · split at h
                  · injection h with h1 h2; subst h1
                    exact optOk_alloc _ (NodeOk.outputSpec hpos)
                  · injection h with h1 h2; subst h1
                    exact optOk_alloc _ (NodeOk.outputSpec hpos)
            · injection h with h1 h2; subst h1
              exact optOk_alloc _ (NodeOk.outputSpec hpos)
          · injection h with h1 h2; subst h1
            exact optOk_alloc _ (NodeOk.outputSpec hpos)
    | elementListFn =>
      simp only [step] at h
      split at h
      · injection h with h1 h2; subst h1; exact optOk_none
      · obtain ⟨elems, p1, hrun, h⟩ := bindNodes_ok h
        injection h with h1 h2; subst h1
        have helems : ∀ n ∈ elems, NodeOk n :=
          ih _ _ _ _ hrun (pres_good (pres_arrayCreate _) hg) nodesOk_nil
        exact optOk_alloc _ (NodeOk.elementList helems)
    | elemListLoopFn elems =>
      simp only [step] at h
      split at h
      · obtain ⟨el, p1, hrun, h⟩ := bindNode_ok h
        have hg1 : goodState p1 := pres_good (run_pres _ _ _ _ _ hrun) hg
        have hcall := ih _ _ _ _ h hg1
        cases r with
        | nodes out =>
          intro helems
          cases el with
          | some e =>
            have he : NodeOk e := ih _ _ _ _ hrun hg e rfl
            exact hcall (nodesOk_append helems he)
          | none => exact hcall helems
        | node o => exact hcall
        | names ns => trivial
        | unit => trivial
      · injection h with h1 h2; subst h1
        exact fun he => he
    | elementFn =>
      simp only [step] at h
      split at h
      · injection h with h1 h2; subst h1; exact optOk_none
      · split at h <;>
          (cases r with
           | node o => have hc2 := ih _ _ _ _ h hg; exact hc2
           | nodes ns => trivial
           | names ns => trivial
           | unit => trivial)
    | textElementFn isRaw =>
      simp only [step] at h
      split at h
      · injection h with h1 h2; subst h1; exact optOk_none
      · next cur heqcur =>
        split at h
        · injection h with h1 h2; subst h1; exact optOk_none
        · next st p1 heq1 =>
          injection h with h1 h2; subst h1
          have hpos : posGood cur.position := goodState_posGood hg heqcur
          exact optOk_alloc _ (NodeOk.textElement hpos)
    | variableElementFn =>
      simp only [step] at h
      split at h
      · injection h with h1 h2; subst h1; exact optOk_none
      · next tk p1 heq1 =>
        injection h with h1 h2; subst h1
        have hpos : posGood tk.position := goodState_posGood hg (consume_some heq1).1
        exact optOk_alloc _ (NodeOk.variableRef hpos)
    | templateElementFn =>
      simp only [step] at h
      split at h
      · injection h with h1 h2; subst h1; exact optOk_none
      · next tk p1 heq1 =>
        have hpos : posGood tk.position := goodState_posGood hg (consume_some heq1).1
        have hg1 : goodState p1 := pres_good (pres_consume_eq heq1) hg
        split at h
        · injection h with h1 h2; subst h1; exact optOk_none
        · split at h
          · obtain ⟨args, p3, hrunA, h⟩ := bindNodes_ok h
            injection h with h1 h2; subst h1
            have hargs : ∀ a ∈ args, NodeOk a :=
              ih _ _ _ _ hrunA
                (pres_good (pres_arrayCreate _) (pres_good (pres_consume _ _ _) hg1))
                nodesOk_nil
            exact optOk_alloc _ (NodeOk.functionCall hpos hargs)
          · injection h with h1 h2; subst h1
            exact optOk_alloc _ (NodeOk.functionCall hpos nodesOk_nil)
    | argsLoopFn args =>
      simp only [step] at h
      obtain ⟨arg, p1, hrun, h⟩ := bindNode_ok h
      have hg1 : goodState p1 := pres_good (run_pres _ _ _ _ _ hrun) hg
      split at h
      · have hcall := ih _ _ _ _ h (pres_good (pres_match _ _) hg1)
        cases r with
        | nodes out =>
          intro hargs
          cases arg with
          | some a =>
            have ha : NodeOk a := ih _ _ _ _ hrun hg a rfl
            exact hcall (nodesOk_append hargs ha)
          | none => exact hcall hargs
        | node o => exact hcall
        | names ns => trivial
        | unit => trivial
      · injection h with h1 h2; subst h1
        intro hargs
        cases arg with
        | some a =>
          have ha : NodeOk a := ih _ _ _ _ hrun hg a rfl
          exact nodesOk_append hargs ha
        | none => exact hargs
    | ifStmtFn =>
      simp only [step] at h
      split at h
      · injection h with h1 h2; subst h1; exact optOk_none
      · next tk1 p1 heq1 =>
        obtain ⟨cond, p2, hrunC, h⟩ := bindNode_ok h
        have hpos : posGood tk1.position := goodState_posGood hg (consume_some heq1).1
        have hg1 : goodState p1 := pres_good (pres_consume_eq heq1) hg
        have hg2 : goodState p2 := pres_good (run_pres _ _ _ _ _ hrunC) hg1
        cases cond with
        | none => injection h with h1 h2; subst h1; exact optOk_none
        | some c =>
          have hc : NodeOk c := ih _ _ _ _ hrunC hg1 c rfl
          obtain ⟨tb, p4, hrunT, h⟩ := bindNode_ok h
          have htb : OptOk tb := ih _ _ _ _ hrunT (pres_good (pres_consume _ _ _) hg2)
          have hg4 : goodState p4 := pres_good (run_pres _ _ _ _ _ hrunT)
            (pres_good (pres_consume _ _ _) hg2)
          split at h
          · obtain ⟨eb, p7, hrunE, h⟩ := bindNode_ok h
            injection h with h1 h2; subst h1
            have heb : OptOk eb :=
              ih _ _ _ _ hrunE
                (pres_good (pres_consume _ _ _)
                  (pres_good (pres_match _ _) (pres_good (pres_consume _ _ _) hg4)))
            exact optOk_alloc _ (NodeOk.ifStmt hpos hc htb heb)
          · injection h with h1 h2; subst h1
            exact optOk_alloc _ (NodeOk.ifStmt hpos hc htb optOk_none)
    | forStmtFn =>
      simp only [step] at h
      split at h
      · injection h with h1 h2; subst h1; exact optOk_none
      · next tk1 p1 heq1 =>
        split at h
        · injection h with h1 h2; subst h1; exact optOk_none
        · next tk2 p2 heq2 =>
          obtain ⟨iter, p4, hrunI, h⟩ := bindNode_ok h
          have hpos : posGood tk1.position := goodState_posGood hg (consume_some heq1).1
          have hg1 : goodState p1 := pres_good (pres_consume_eq heq1) hg
          have hg2 : goodState p2 := pres_good (pres_consume_eq heq2) hg1
          have hg4 : goodState p4 :=
            pres_good (run_pres _ _ _ _ _ hrunI) (pres_good (pres_consume _ _ _) hg2)
          cases iter with
          | none => injection h with h1 h2; subst h1; exact optOk_none
          | some iter =>
            have hiter : NodeOk iter :=
              ih _ _ _ _ hrunI (pres_good (pres_consume _ _ _) hg2) iter rfl
            obtain ⟨body, p6, hrunB, h⟩ := bindNode_ok h
            injection h with h1 h2; subst h1
            have hbody : OptOk body := ih _ _ _ _ hrunB (pres_good (pres_consume _ _ _) hg4)
            exact optOk_alloc _ (NodeOk.forStmt hpos hiter hbody)
    | whileStmtFn =>
      simp only [step] at h
      split at h
      · injection h with h1 h2; subst h1; exact optOk_none
      · next tk1 p1 heq1 =>
        obtain ⟨cond, p2, hrunC, h⟩ := bindNode_ok h
        have hpos : posGood tk1.position := goodState_posGood hg (consume_some heq1).1
        have hg1 : goodState p1 := pres_good (pres_consume_eq heq1) hg
        have hg2 : goodState p2 := pres_good (run_pres _ _ _ _ _ hrunC) hg1
        cases cond with
        | none => injection h with h1 h2; subst h1; exact optOk_none
        | some c =>
          have hc : NodeOk c := ih _ _ _ _ hrunC hg1 c rfl
          obtain ⟨body, p4, hrunB, h⟩ := bindNode_ok h
          injection h with h1 h2; subst h1
          have hbody : OptOk body := ih _ _ _ _ hrunB (pres_good (pres_consume _ _ _) hg2)
          exact optOk_alloc _ (NodeOk.whileStmt hpos hc hbody)
    | expressionFn =>
      simp only [step] at h
      have hcall := ih _ _ _ _ h hg
      cases r with
      | node o => exact hcall
      | nodes ns => trivial
      | names ns => trivial
      | unit => trivial
    | logicalOrFn =>
      simp only [step] at h
      obtain ⟨left, p1, hrun, h⟩ := bindNode_ok h
      have hleft : OptOk left := ih _ _ _ _ hrun hg
      have hcall := ih _ _ _ _ h (pres_good (run_pres _ _ _ _ _ hrun) hg)
      cases r with
      | node o => exact hcall hleft
      | nodes ns => trivial
      | names ns => trivial
      | unit => trivial
    | orLoopFn left =>
      simp only [step] at h
      split at h
      · obtain ⟨right, p2, hrun, h⟩ := bindNode_ok h
        have hg1 : goodState (parser_match p .OR).2 := pres_good (pres_match _ _) hg
        have hright : OptOk right := ih _ _ _ _ hrun hg1
        have hg2 : goodState p2 := pres_good (run_pres _ _ _ _ _ hrun) hg1
        obtain ⟨opT, hopT⟩ := goodState_current hg1
        rw [hopT] at h
        have hopos : posGood opT.position := goodState_posGood hg1 hopT
        have hcall := ih _ _ _ _ h (pres_good (pres_allocNode _ _) hg2)
        cases r with
        | node o =>
          intro hleft
          exact hcall (optOk_alloc _ (NodeOk.binaryExpr hopos hleft hright))
        | nodes ns => trivial
        | names ns => trivial
        | unit => trivial
      · injection h with h1 h2; subst h1
        exact id
    | logicalAndFn =>
      simp only [step] at h
      obtain ⟨left, p1, hrun, h⟩ := bindNode_ok h
      have hleft : OptOk left := ih _ _ _ _ hrun hg
      have hcall := ih _ _ _ _ h (pres_good (run_pres _ _ _ _ _ hrun) hg)
      cases r with
      | node o => exact hcall hleft
      | nodes ns => trivial
      | names ns => trivial
      | unit => trivial
    | andLoopFn left =>
      simp only [step] at h
      split at h
      · obtain ⟨right, p2, hrun, h⟩ := bindNode_ok h
        have hg1 : goodState (parser_match p .AND).2 := pres_good (pres_match _ _) hg
        have hright : OptOk right := ih _ _ _ _ hrun hg1
        have hg2 : goodState p2 := pres_good (run_pres _ _ _ _ _ hrun) hg1
        obtain ⟨opT, hopT⟩ := goodState_current hg1
        rw [hopT] at h
        have hopos : posGood opT.position := goodState_posGood hg1 hopT
        have hcall := ih _ _ _ _ h (pres_good (pres_allocNode _ _) hg2)
        cases r with
        | node o =>
          intro hleft
          exact hcall (optOk_alloc _ (NodeOk.binaryExpr hopos hleft hright))
        | nodes ns => trivial
        | names ns => trivial
        | unit => trivial
      · injection h with h1 h2; subst h1
        exact id
    | equalityFn =>
      simp only [step] at h
      obtain ⟨left, p1, hrun, h⟩ := bindNode_ok h
      have hleft : OptOk left := ih _ _ _ _ hrun hg
      have hcall := ih _ _ _ _ h (pres_good (run_pres _ _ _ _ _ hrun) hg)
      cases r with
      | node o => exact hcall hleft
      | nodes ns => trivial
      | names ns => trivial
      | unit => trivial
    | eqLoopFn left =>
      simp only [step] at h
      split at h
      · obtain ⟨right, p2, hrun, h⟩ := bindNode_ok h
        have hg1 : goodState (parser_match p .EQ).2 := pres_good (pres_match _ _) hg
        have hright : OptOk right := ih _ _ _ _ hrun hg1
        have hg2 : goodState p2 := pres_good (run_pres _ _ _ _ _ hrun) hg1
        obtain ⟨opT, hopT⟩ := goodState_current hg1
        rw [hopT] at h
        have hopos : posGood opT.position := goodState_posGood hg1 hopT
        have hcall := ih _ _ _ _ h (pres_good (pres_allocNode _ _) hg2)
        cases r with
        | node o =>
          intro hleft
          exact hcall (optOk_alloc _ (NodeOk.binaryExpr hopos hleft hright))
        | nodes ns => trivial
        | names ns => trivial
        | unit => trivial
      · split at h
        · obtain ⟨right, p2, hrun, h⟩ := bindNode_ok h
          have hg1 : goodState (parser_match (parser_match p .EQ).2 .NE).2 :=
            pres_good (pres_match _ _) (pres_good (pres_match _ _) hg)
          have hright : OptOk right := ih _ _ _ _ hrun hg1
          have hg2 : goodState p2 := pres_good (run_pres _ _ _ _ _ hrun) hg1
          obtain ⟨opT, hopT⟩ := goodState_current hg1
          rw [hopT] at h
          have hopos : posGood opT.position := goodState_posGood hg1 hopT
          have hcall := ih _ _ _ _ h (pres_good (pres_allocNode _ _) hg2)
          cases r with
          | node o =>
            intro hleft
            exact hcall (optOk_alloc _ (NodeOk.binaryExpr hopos hleft hright))
          | nodes ns => trivial
          | names ns => trivial
          | unit => trivial
        · injection h with h1 h2; subst h1
          exact id
    | comparisonFn =>
      simp only [step] at h
      obtain ⟨left, p1, hrun, h⟩ := bindNode_ok h
      have hleft : OptOk left := ih _ _ _ _ hrun hg
      have hcall := ih _ _ _ _ h (pres_good (run_pres _ _ _ _ _ hrun) hg)
      cases r with
      | node o => exact hcall hleft
      | nodes ns => trivial
      | names ns => trivial
      | unit => trivial
    | cmpLoopFn left =>
      simp only [step] at h
      split at h
      · obtain ⟨right, p2, hrun, h⟩ := bindNode_ok h
        have hg1 : goodState (parser_match p .LT).2 := pres_good (pres_match _ _) hg
        have hright : OptOk right := ih _ _ _ _ hrun hg1
        have hg2 : goodState p2 := pres_good (run_pres _ _ _ _ _ hrun) hg1
        obtain ⟨opT, hopT⟩ := goodState_current hg1
        rw [hopT] at h
        have hopos : posGood opT.position := goodState_posGood hg1 hopT
        have hcall := ih _ _ _ _ h (pres_good (pres_allocNode _ _) hg2)
        cases r with
        | node o =>
          intro hleft
          exact hcall (optOk_alloc _ (NodeOk.binaryExpr hopos hleft hright))
        | nodes ns => trivial
        | names ns => trivial
        | unit => trivial
      · split at h
        · obtain ⟨right, p2, hrun, h⟩ := bindNode_ok h
          have hg1 : goodState (parser_match (parser_match p .LT).2 .GT).2 :=
            pres_good (pres_match _ _) (pres_good (pres_match _ _) hg)
          have hright : OptOk right := ih _ _ _ _ hrun hg1
          have hg2 : goodState p2 := pres_good (run_pres _ _ _ _ _ hrun) hg1
          obtain ⟨opT, hopT⟩ := goodState_current hg1
          rw [hopT] at h
          have hopos : posGood opT.position := goodState_posGood hg1 hopT
          have hcall := ih _ _ _ _ h (pres_good (pres_allocNode _ _) hg2)
          cases r with
          | node o =>
            intro hleft
            exact hcall (optOk_alloc _ (NodeOk.binaryExpr hopos hleft hright))
          | nodes ns => trivial
          | names ns => trivial
          | unit => trivial
        · split at h
          · obtain ⟨right, p2, hrun, h⟩ := bindNode_ok h
            have hg1 : goodState (parser_match (parser_match (parser_match p .LT).2 .GT).2 .LE).2 :=
              pres_good (pres_match _ _)
                (pres_good (pres_match _ _) (pres_good (pres_match _ _) hg))
            have hright : OptOk right := ih _ _ _ _ hrun hg1
            have hg2 : goodState p2 := pres_good (run_pres _ _ _ _ _ hrun) hg1
            obtain ⟨opT, hopT⟩ := goodState_current hg1
            rw [hopT] at h
            have hopos : posGood opT.position := goodState_posGood hg1 hopT
            have hcall := ih _ _ _ _ h (pres_good (pres_allocNode _ _) hg2)
            cases r with
            | node o =>
              intro hleft
              exact hcall (optOk_alloc _ (NodeOk.binaryExpr hopos hleft hright))
            | nodes ns => trivial
            | names ns => trivial
            | unit => trivial
          · split at h
            · obtain ⟨right, p2, hrun, h⟩ := bindNode_ok h
              have hg1 : goodState
                  (parser_match (parser_match (parser_match (parser_match p .LT).2 .GT).2 .LE).2 .GE).2 :=
                pres_good (pres_match _ _) (pres_good (pres_match _ _)
                  (pres_good (pres_match _ _) (pres_good (pres_match _ _) hg)))
              have hright : OptOk right := ih _ _ _ _ hrun hg1
              have hg2 : goodState p2 := pres_good (run_pres _ _ _ _ _ hrun) hg1
              obtain ⟨opT, hopT⟩ := goodState_current hg1
              rw [hopT] at h
              have hopos : posGood opT.position := goodState_posGood hg1 hopT
              have hcall := ih _ _ _ _ h (pres_good (pres_allocNode _ _) hg2)
              cases r with
              | node o =>
                intro hleft
                exact hcall (optOk_alloc _ (NodeOk.binaryExpr hopos hleft hright))
              | nodes ns => trivial
              | names ns => trivial
              | unit => trivial
            · injection h with h1 h2; subst h1
              exact id
    | termFn =>
      simp only [step] at h
      obtain ⟨left, p1, hrun, h⟩ := bindNode_ok h
      have hleft : OptOk left := ih _ _ _ _ hrun hg
      have hcall := ih _ _ _ _ h (pres_good (run_pres _ _ _ _ _ hrun) hg)
      cases r with
      | node o => exact hcall hleft
      | nodes ns => trivial
      | names ns => trivial
      | unit => trivial
    | termLoopFn left =>
      simp only [step] at h
      split at h
      · obtain ⟨right, p2, hrun, h⟩ := bindNode_ok h
        have hg1 : goodState (parser_match p .ADD).2 := pres_good (pres_match _ _) hg
        have hright : OptOk right := ih _ _ _ _ hrun hg1
        have hg2 : goodState p2 := pres_good (run_pres _ _ _ _ _ hrun) hg1
        obtain ⟨opT, hopT⟩ := goodState_current hg1
        rw [hopT] at h
        have hopos : posGood opT.position := goodState_posGood hg1 hopT
        have hcall := ih _ _ _ _ h (pres_good (pres_allocNode _ _) hg2)
        cases r with
        | node o =>
          intro hleft
          exact hcall (optOk_alloc _ (NodeOk.binaryExpr hopos hleft hright))
        | nodes ns => trivial
        | names ns => trivial
        | unit => trivial
      · split at h
        · obtain ⟨right, p2, hrun, h⟩ := bindNode_ok h
          have hg1 : goodState (parser_match (parser_match p .ADD).2 .SUB).2 :=
            pres_good (pres_match _ _) (pres_good (pres_match _ _) hg)
          have hright : OptOk right := ih _ _ _ _ hrun hg1
          have hg2 : goodState p2 := pres_good (run_pres _ _ _ _ _ hrun) hg1
          obtain ⟨opT, hopT⟩ := goodState_current hg1
          rw [hopT] at h
          have hopos : posGood opT.position := goodState_posGood hg1 hopT
          have hcall := ih _ _ _ _ h (pres_good (pres_allocNode _ _) hg2)
          cases r with
          | node o =>
            intro hleft
            exact hcall (optOk_alloc _ (NodeOk.binaryExpr hopos hleft hright))
          | nodes ns => trivial
          | names ns => trivial
          | unit => trivial
        · injection h with h1 h2; subst h1
          exact id
    | factorFn =>
      simp only [step] at h
      obtain ⟨left, p1, hrun, h⟩ := bindNode_ok h
      have hleft : OptOk left := ih _ _ _ _ hrun hg
      have hcall := ih _ _ _ _ h (pres_good (run_pres _ _ _ _ _ hrun) hg)
      cases r with
      | node o => exact hcall hleft
      | nodes ns => trivial
      | names ns => trivial
      | unit => trivial
    | factorLoopFn left =>
      simp only [step] at h
      split at h
      · obtain ⟨right, p2, hrun, h⟩ := bindNode_ok h
        have hg1 : goodState (parser_match p .MUL).2 := pres_good (pres_match _ _) hg
        have hright : OptOk right := ih _ _ _ _ hrun hg1
        have hg2 : goodState p2 := pres_good (run_pres _ _ _ _ _ hrun) hg1
        obtain ⟨opT, hopT⟩ := goodState_current hg1
        rw [hopT] at h
        have hopos : posGood opT.position := goodState_posGood hg1 hopT
        have hcall := ih _ _ _ _ h (pres_good (pres_allocNode _ _) hg2)
        cases r with
        | node o =>
          intro hleft
          exact hcall (optOk_alloc _ (NodeOk.binaryExpr hopos hleft hright))
        | nodes ns => trivial
        | names ns => trivial
        | unit => trivial
      · split at h
        · obtain ⟨right, p2, hrun, h⟩ := bindNode_ok h
          have hg1 : goodState (parser_match (parser_match p .MUL).2 .DIV).2 :=
            pres_good (pres_match _ _) (pres_good (pres_match _ _) hg)
          have hright : OptOk right := ih _ _ _ _ hrun hg1
          have hg2 : goodState p2 := pres_good (run_pres _ _ _ _ _ hrun) hg1
          obtain ⟨opT, hopT⟩ := goodState_current hg1
          rw [hopT] at h
          have hopos : posGood opT.position := goodState_posGood hg1 hopT
          have hcall := ih _ _ _ _ h (pres_good (pres_allocNode _ _) hg2)
          cases r with
          | node o =>
            intro hleft
            exact hcall (optOk_alloc _ (NodeOk.binaryExpr hopos hleft hright))
          | nodes ns => trivial
          | names ns => trivial
          | unit => trivial
        · split at h
          · obtain ⟨right, p2, hrun, h⟩ := bindNode_ok h
            have hg1 : goodState (parser_match (parser_match (parser_match p .MUL).2 .DIV).2 .MOD).2 :=
              pres_good (pres_match _ _)
                (pres_good (pres_match _ _) (pres_good (pres_match _ _) hg))
            have hright : OptOk right := ih _ _ _ _ hrun hg1
            have hg2 : goodState p2 := pres_good (run_pres _ _ _ _ _ hrun) hg1
            obtain ⟨opT, hopT⟩ := goodState_current hg1
            rw [hopT] at h
            have hopos : posGood opT.position := goodState_posGood hg1 hopT
            have hcall := ih _ _ _ _ h (pres_good (pres_allocNode _ _) hg2)
            cases r with
            | node o =>
              intro hleft
              exact hcall (optOk_alloc _ (NodeOk.binaryExpr hopos hleft hright))
            | nodes ns => trivial
            | names ns => trivial
            | unit => trivial
          · injection h with h1 h2; subst h1
            exact id
    | powerFn =>
      simp only [step] at h
      obtain ⟨left, p1, hrun, h⟩ := bindNode_ok h
      have hleft : OptOk left := ih _ _ _ _ hrun hg
      have hg1 : goodState p1 := pres_good (run_pres _ _ _ _ _ hrun) hg
      split at h
      · obtain ⟨right, p3, hrun2, h⟩ := bindNode_ok h
        have hg2 : goodState (parser_match p1 .POW).2 := pres_good (pres_match _ _) hg1
        have hright : OptOk right := ih _ _ _ _ hrun2 hg2
        obtain ⟨opT, hopT⟩ := goodState_current hg2
        rw [hopT] at h
        have hopos : posGood opT.position := goodState_posGood hg2 hopT
        injection h with h1 h2; subst h1
        exact optOk_alloc _ (NodeOk.binaryExpr hopos hleft hright)
      · injection h with h1 h2; subst h1
        exact hleft
    | unaryFn =>
      simp only [step] at h
      split at h
      · obtain ⟨operand, p2, hrun, h⟩ := bindNode_ok h
        have hg1 : goodState (parser_match p .NOT).2 := pres_good (pres_match _ _) hg
        have hoperand : OptOk operand := ih _ _ _ _ hrun hg1
        obtain ⟨opT, hopT⟩ := goodState_current hg1
        rw [hopT] at h
        have hopos : posGood opT.position := goodState_posGood hg1 hopT
        injection h with h1 h2; subst h1
        exact optOk_alloc _ (NodeOk.unaryExpr hopos hoperand)
      · split at h
        · obtain ⟨operand, p2, hrun, h⟩ := bindNode_ok h
          have hg1 : goodState (parser_match (parser_match p .NOT).2 .SUB).2 :=
            pres_good (pres_match _ _) (pres_good (pres_match _ _) hg)
          have hoperand : OptOk operand := ih _ _ _ _ hrun hg1
          obtain ⟨opT, hopT⟩ := goodState_current hg1
          rw [hopT] at h
          have hopos : posGood opT.position := goodState_posGood hg1 hopT
          injection h with h1 h2; subst h1
          exact optOk_alloc _ (NodeOk.unaryExpr hopos hoperand)
        · have hcall := ih _ _ _ _ h
            (pres_good (pres_match _ _) (pres_good (pres_match _ _) hg))
          cases r with
          | node o => exact hcall
          | nodes ns => trivial
          | names ns => trivial
          | unit => trivial
    | primaryFn =>
      simp only [step] at h
      split at h
      · injection h with h1 h2; subst h1; exact optOk_none
      · next tok heqcur =>
        have hpos : posGood tok.position := goodState_posGood hg heqcur
        split at h
        · injection h with h1 h2; subst h1
          exact optOk_alloc _ (NodeOk.identifier hpos)
        · injection h with h1 h2; subst h1
          exact optOk_alloc _ (NodeOk.stringLiteral hpos)
        · injection h with h1 h2; subst h1
          exact optOk_alloc _ (NodeOk.numberLiteral hpos)
        · injection h with h1 h2; subst h1
          exact optOk_alloc _ (NodeOk.booleanLiteral hpos)
        · injection h with h1 h2; subst h1
          exact optOk_alloc _ (NodeOk.booleanLiteral hpos)
        · obtain ⟨expr, p2, hrun, h⟩ := bindNode_ok h
          injection h with h1 h2; subst h1
          have hc2 := ih _ _ _ _ hrun (pres_good (pres_advance _) hg)
          exact hc2
        · injection h with h1 h2; subst h1
          exact optOk_none

theorem pres_failSet {p q : Parser} (h : Pres p q) : q.alloc.failSet = p.alloc.failSet :=
  h.2.1

theorem pres_errors_le {p q : Parser} (h : Pres p q) :
    p.errors.length ≤ q.errors.length := by
  obtain ⟨-, -, ⟨t, ht⟩, -⟩ := h
  rw [ht, List.length_append]
  omega

theorem allocNode_none_absurd {n : ASTNode} {p : Parser} {C : Prop}
    (h : (allocNode n p).1 = none) (hfs : p.alloc.failSet = []) : C := by
  rw [allocNode_fst_ok n hfs] at h
  exact absurd h (by simp)

theorem arrayCreate_fail_absurd {p : Parser} {C : Prop}
    (hcond : (!(pcc_array_create p).1) = true) (hfs : p.alloc.failSet = []) : C := by
  rw [arrayCreate_ok hfs] at hcond
  exact absurd hcond (by simp)

/-- When every allocation succeeds, a failed `parse_prompt_def` has recorded
a diagnostic. -/
theorem promptDef_none_appends : ∀ fuel p p', p.alloc.failSet = [] →
    run fuel .promptDefFn p = .ok (.node none) p' →
    p.errors.length < p'.errors.length := by
  intro fuel p p' hfs h
  cases fuel with
  | zero => exact PR.noConfusion h
  | succ fuel =>
    replace h : step (run fuel) .promptDefFn p = .ok (.node none) p' := h
    simp only [step] at h
    split at h
    · next p1 heq1 =>
      injection h with h1 h2; subst h2
      obtain ⟨hq, -⟩ := consume_none heq1
      subst hq
      rw [error_append hfs, List.length_append]
      simp
    · next tk1 p1 heq1 =>
      obtain ⟨-, herr1, hall1, -⟩ := consume_some_components heq1
      split at h
      · next p2 heq2 =>
        injection h with h1 h2; subst h2
        obtain ⟨hq, -⟩ := consume_none heq2
        subst hq
        rw [error_append (by rw [hall1]; exact hfs), herr1, List.length_append]
        simp
      · next tk2 p2 heq2 =>
        obtain ⟨body, p4, hrun, h⟩ := bindNode_ok h
        injection h with h1 h2
        injection h1 with h1
        exact allocNode_none_absurd h1 (by
          rw [pres_failSet (pres_trans (pres_consume_eq heq1)
            (pres_trans (pres_consume_eq heq2) (pres_trans (pres_consume _ _ _)
              (pres_trans (run_pres _ _ _ _ _ hrun) (pres_consume _ _ _)))))]
          exact hfs)

/-- When every allocation succeeds, a failed `parse_var_decl` has recorded
a diagnostic. -/
theorem varDecl_none_appends : ∀ fuel p p', p.alloc.failSet = [] →
    run fuel .varDeclFn p = .ok (.node none) p' →
    p.errors.length < p'.errors.length := by
  intro fuel p p' hfs h
  cases fuel with
  | zero => exact PR.noConfusion h
  | succ fuel =>
    replace h : step (run fuel) .varDeclFn p = .ok (.node none) p' := h
    simp only [step] at h
    split at h
    · next p1 heq1 =>
      injection h with h1 h2; subst h2
      obtain ⟨hq, -⟩ := consume_none heq1
      subst hq
      rw [error_append hfs, List.length_append]
      simp
    · next tk1 p1 heq1 =>
      obtain ⟨-, herr1, hall1, -⟩ := consume_some_components heq1
      split at h
      · next p2 heq2 =>
        injection h with h1 h2; subst h2
        obtain ⟨hq, -⟩ := consume_none heq2
        subst hq
        rw [error_append (by rw [hall1]; exact hfs), herr1, List.length_append]
        simp
      · next tk2 p2 heq2 =>
        obtain ⟨ini, p4, hrun, h⟩ := bindNode_ok h
        have hP4 : Pres p p4 := pres_trans (pres_consume_eq heq1)
          (pres_trans (pres_consume_eq heq2)
            (pres_trans (pres_consume _ _ _) (run_pres _ _ _ _ _ hrun)))
        cases ini with
        | none =>
          injection h with h1 h2; subst h2
          have hfs4 : p4.alloc.failSet = [] := by rw [pres_failSet hP4]; exact hfs
          have hle := pres_errors_le hP4
          rw [error_append hfs4, List.length_append]
          simp only [List.length_singleton]
          omega
        | some ini =>
          injection h with h1 h2
          injection h1 with h1
          exact allocNode_none_absurd h1 (by
            rw [pres_failSet (pres_trans hP4 (pres_consume _ _ _))]
            exact hfs)

/-- When every allocation succeeds, a failed `parse_template_def` has
recorded a diagnostic. -/
theorem templateDef_none_appends : ∀ fuel p p', p.alloc.failSet = [] →
    run fuel .templateDefFn p = .ok (.node none) p' →
    p.errors.length < p'.errors.length := by
  intro fuel p p' hfs h
  cases fuel with
  | zero => exact PR.noConfusion h
  | succ fuel =>
    replace h : step (run fuel) .templateDefFn p = .ok (.node none) p' := h
    simp only [step] at h
    split at h
    · next p1 heq1 =>
      injection h with h1 h2; subst h2
      obtain ⟨hq, -⟩ := consume_none heq1
      subst hq
      rw [error_append hfs, List.length_append]
      simp
    · next tk1 p1 heq1 =>
      obtain ⟨-, herr1, hall1, -⟩ := consume_some_components heq1
      split at h
      · next p2 heq2 =>
        injection h with h1 h2; subst h2
        obtain ⟨hq, -⟩ := consume_none heq2
        subst hq
        rw [error_append (by rw [hall1]; exact hfs), herr1, List.length_append]
        simp
      · next tk2 p2 heq2 =>
        split at h
        · rename_i hcond
          exact arrayCreate_fail_absurd hcond (by
            rw [pres_failSet (pres_trans (pres_consume_eq heq1)
              (pres_trans (pres_consume_eq heq2) (pres_consume _ _ _)))]
            exact hfs)
        · split at h
          · obtain ⟨ps, p5, hrunP, h⟩ := bindNames_ok h
            obtain ⟨body, p7, hrunB, h⟩ := bindNode_ok h
            injection h with h1 h2
            injection h1 with h1
            exact allocNode_none_absurd h1 (by
              rw [pres_failSet (pres_trans (pres_consume_eq heq1)
                (pres_trans (pres_consume_eq heq2) (pres_trans (pres_consume _ _ _)
                  (pres_trans (pres_arrayCreate _) (pres_trans (run_pres _ _ _ _ _ hrunP)
                    (pres_trans (pres_consume _ _ _) (pres_trans (pres_consume _ _ _)
                      (pres_trans (run_pres _ _ _ _ _ hrunB) (pres_consume _ _ _)))))))))]
              exact hfs)
          · obtain ⟨body, p7, hrunB, h⟩ := bindNode_ok h
            injection h with h1 h2
            injection h1 with h1
            exact allocNode_none_absurd h1 (by
              rw [pres_failSet (pres_trans (pres_consume_eq heq1)
                (pres_trans (pres_consume_eq heq2) (pres_trans (pres_consume _ _ _)
                  (pres_trans (pres_arrayCreate _) (pres_trans (pres_consume _ _ _)
                    (pres_trans (pres_consume _ _ _)
                      (pres_trans (run_pres _ _ _ _ _ hrunB) (pres_consume _ _ _))))))))]
              exact hfs)

/-- When every allocation succeeds, a failed `parse_constraint_def` has
recorded a diagnostic. -/
theorem constraintDef_none_appends : ∀ fuel p p', p.alloc.failSet = [] →
    run fuel .constraintDefFn p = .ok (.node none) p' →
    p.errors.length < p'.errors.length := by
  intro fuel p p' hfs h
  cases fuel with
  | zero => exact PR.noConfusion h
  | succ fuel =>
    replace h : step (run fuel) .constraintDefFn p = .ok (.node none) p' := h
    simp only [step] at h
    split at h
    · next p1 heq1 =>
      injection h with h1 h2; subst h2
      obtain ⟨hq, -⟩ := consume_none heq1
      subst hq
      rw [error_append hfs, List.length_append]
      simp
    · next tk1 p1 heq1 =>
      obtain ⟨-, herr1, hall1, -⟩ := consume_some_components heq1
      split at h
      · next p2 heq2 =>
        injection h with h1 h2; subst h2
        obtain ⟨hq, -⟩ := consume_none heq2
        subst hq
        rw [error_append (by rw [hall1]; exact hfs), herr1, List.length_append]
        simp
      · next tk2 p2 heq2 =>
        split at h
        · rename_i hcond
          exact arrayCreate_fail_absurd hcond (by
            rw [pres_failSet (pres_trans (pres_consume_eq heq1)
              (pres_trans (pres_consume_eq heq2) (pres_consume _ _ _)))]
            exact hfs)
        · obtain ⟨cs, p5, hrun, h⟩ := bindNodes_ok h
          injection h with h1 h2
          injection h1 with h1
          exact allocNode_none_absurd h1 (by
            rw [pres_failSet (pres_trans (pres_consume_eq heq1)
              (pres_trans (pres_consume_eq heq2) (pres_trans (pres_consume _ _ _)
                (pres_trans (pres_arrayCreate _) (pres_trans (run_pres _ _ _ _ _ hrun)
                  (pres_consume _ _ _))))))]
            exact hfs)

/-- When every allocation succeeds, a failed `parse_output_spec` has
recorded a diagnostic. -/
theorem outputSpec_none_appends : ∀ fuel p p', p.alloc.failSet = [] →
    run fuel .outputSpecFn p = .ok (.node none) p' →
    p.errors.length < p'.errors.length := by
  intro fuel p p' hfs h
  cases fuel with
  | zero => exact PR.noConfusion h
  | succ fuel =>
    replace h : step (run fuel) .outputSpecFn p = .ok (.node none) p' := h
    simp only [step] at h
    split at h
    · next p1 heq1 =>
      injection h with h1 h2; subst h2
      obtain ⟨hq, -⟩ := consume_none heq1
      subst hq
      rw [error_append hfs, List.length_append]
      simp
    · next tk1 p1 heq1 =>
      obtain ⟨-, herr1, hall1, -⟩ := consume_some_components heq1
      split at h
      · next p2 heq2 =>
        injection h with h1 h2; subst h2
        obtain ⟨hq, -⟩ := consume_none heq2
        subst hq
        rw [error_append (by rw [hall1]; exact hfs), herr1, List.length_append]
        simp
      · next tk2 p2 heq2 =>
        split at h
        · split at h
          · split at h
            · injection h with h1 h2
              injection h1 with h1
              exact allocNode_none_absurd h1 (by
                rw [pres_failSet (pres_trans (pres_consume_eq heq1)
                  (pres_trans (pres_consume_eq heq2) (pres_trans (pres_consume _ _ _)
                    (pres_trans (pres_match _ _) (pres_consume _ _ _)))))]
                exact hfs)
            · split at h
              · injection h with h1 h2
                injection h1 with h1
                exact allocNode_none_absurd h1 (by
                  rw [pres_failSet (pres_trans (pres_consume_eq heq1)
                    (pres_trans (pres_consume_eq heq2) (pres_trans (pres_consume _ _ _)
                      (pres_trans (pres_match _ _) (pres_consume _ _ _)))))]
                  exact hfs)
              · split at h
                · injection h with h1 h2
                  injection h1 with h1
                  exact allocNode_none_absurd h1 (by
                    rw [pres_failSet (pres_trans (pres_consume_eq heq1)
                      (pres_trans (pres_consume_eq heq2) (pres_trans (pres_consume _ _ _)
                        (pres_trans (pres_match _ _) (pres_consume _ _ _)))))]
                    exact hfs)
                · injection h with h1 h2
                  injection h1 with h1
                  exact allocNode_none_absurd h1 (by
                    rw [pres_failSet (pres_trans (pres_consume_eq heq1)
                      (pres_trans (pres_consume_eq heq2) (pres_trans (pres_consume _ _ _)
                        (pres_trans (pres_match _ _) (pres_trans (pres_error _ _)
                          (pres_consume _ _ _))))))]
                    exact hfs)
          · injection h with h1 h2
            injection h1 with h1
            exact allocNode_none_absurd h1 (by
              rw [pres_failSet (pres_trans (pres_consume_eq heq1)
                (pres_trans (pres_consume_eq heq2) (pres_trans (pres_consume _ _ _)
                  (pres_trans (pres_match _ _) (pres_consume _ _ _)))))]
              exact hfs)
        · injection h with h1 h2
          injection h1 with h1
          exact allocNode_none_absurd h1 (by
            rw [pres_failSet (pres_trans (pres_consume_eq heq1)
              (pres_trans (pres_consume_eq heq2) (pres_trans (pres_consume _ _ _)
                (pres_trans (pres_match _ _) (pres_consume _ _ _)))))]
            exact hfs)

/-- When every allocation succeeds and a current token exists, a
`parse_statement` call that returns no node has appended at least one
ParseError. -/
theorem statement_none_appends : ∀ fuel p p' t, p.alloc.failSet = [] →
    parser_current p = some t →
    parse_statement fuel p = .ok (.node none) p' →
    p.errors.length < p'.errors.length := by
  intro fuel p p' t hfs hcur h
  cases fuel with
  | zero => exact PR.noConfusion h
  | succ fuel =>
    replace h : step (run fuel) .statementFn p = .ok (.node none) p' := h
    simp only [step, hcur] at h
    cases htt : t.type <;> simp only [htt] at h <;>
      first
      | exact promptDef_none_appends _ _ _ hfs h
      | exact varDecl_none_appends _ _ _ hfs h
      | exact templateDef_none_appends _ _ _ hfs h
      | exact constraintDef_none_appends _ _ _ hfs h
      | exact outputSpec_none_appends _ _ _ hfs h
      | (injection h with h1 h2; subst h2;
         rw [error_append hfs, List.length_append]; simp)

/-!
Concrete token sequences used by the claims.  `mkTok`/`mkNum` build tokens
the way the modelled lexer would, with one-based positions.
-/

def mkTok (ty : TokenType) (lx : String) (line col : Nat) : Token :=
  ⟨ty, lx, "", 0, ⟨line, col, "input.pcc"⟩⟩

def mkNum (n : Int) (line col : Nat) : Token :=
  ⟨.NUMBER, toString n, "", n, ⟨line, col, "input.pcc"⟩⟩

/-- The statement `prompt p { ; }`: inside the element list the semicolon
can start no element, and the element-list loop never consumes it. -/
def c1Tokens : List Token :=
  [mkTok .PROMPT "prompt" 1 1, mkTok .IDENTIFIER "p" 1 8, mkTok .LBRACE "\x7b" 1 10,
   mkTok .SEMICOLON ";" 1 12, mkTok .RBRACE "\x7d" 1 14, mkTok .EOF "" 1 15]

/-- Session states reached inside the element-list loop on `c1Tokens`:
cursor stuck on the semicolon; the error list and the allocation counter
grow on every iteration. -/
def c1State (errs : List ParseError) (cnt : Nat) : Parser :=
  ⟨c1Tokens, 3, errs, ⟨[], cnt⟩⟩

/-- The diagnostic appended on every iteration of the stuck loop. -/
def c1SemiErr : ParseError :=
  ⟨"Expected expression", ⟨1, 12, "input.pcc"⟩⟩

theorem c1_primary : ∀ f errs cnt,
    run f .primaryFn (c1State errs cnt) = .div ∨
    run f .primaryFn (c1State errs cnt) =
      .ok (.node none) (c1State (errs ++ [c1SemiErr]) (cnt + 1)) := by
  intro f errs cnt
  match f with
  | 0 => exact Or.inl rfl
  | f + 1 => exact Or.inr rfl

theorem c1_unary : ∀ f errs cnt,
    run f .unaryFn (c1State errs cnt) = .div ∨
    run f .unaryFn (c1State errs cnt) =
      .ok (.node none) (c1State (errs ++ [c1SemiErr]) (cnt + 1)) := by
  intro f errs cnt
  match f with
  | 0 => exact Or.inl rfl
  | f + 1 => exact c1_primary f errs cnt

theorem c1_power : ∀ f errs cnt,
    run f .powerFn (c1State errs cnt) = .div ∨
    run f .powerFn (c1State errs cnt) =
      .ok (.node none) (c1State (errs ++ [c1SemiErr]) (cnt + 1)) := by
  intro f errs cnt
  match f with
  | 0 => exact Or.inl rfl
  | f + 1 =>
    change bindNode (run f .unaryFn (c1State errs cnt)) _ = PR.div ∨
      bindNode (run f .unaryFn (c1State errs cnt)) _ =
        PR.ok (Out.node none) (c1State (errs ++ [c1SemiErr]) (cnt + 1))
    rcases c1_unary f errs cnt with hd | hd <;> rw [hd]
    · exact Or.inl rfl
    · simp only [bindNode]
      exact Or.inr rfl

theorem c1_factorLoop : ∀ f left errs cnt,
    run f (.factorLoopFn left) (c1State errs cnt) = .div ∨
    run f (.factorLoopFn left) (c1State errs cnt) =
      .ok (.node left) (c1State errs cnt) := by
  intro f left errs cnt
  match f with
  | 0 => exact Or.inl rfl
  | f + 1 => exact Or.inr rfl

theorem c1_factor : ∀ f errs cnt,
    run f .factorFn (c1State errs cnt) = .div ∨
    run f .factorFn (c1State errs cnt) =
      .ok (.node none) (c1State (errs ++ [c1SemiErr]) (cnt + 1)) := by
  intro f errs cnt
  match f with
  | 0 => exact Or.inl rfl
  | f + 1 =>
    change bindNode (run f .powerFn (c1State errs cnt)) _ = PR.div ∨
      bindNode (run f .powerFn (c1State errs cnt)) _ =
        PR.ok (Out.node none) (c1State (errs ++ [c1SemiErr]) (cnt + 1))
    rcases c1_power f errs cnt with hd | hd <;> rw [hd]
    · exact Or.inl rfl
    · simp only [bindNode]
      exact c1_factorLoop f none (errs ++ [c1SemiErr]) (cnt + 1)

theorem c1_termLoop : ∀ f left errs cnt,
    run f (.termLoopFn left) (c1State errs cnt) = .div ∨
    run f (.termLoopFn left) (c1State errs cnt) =
      .ok (.node left) (c1State errs cnt) := by
  intro f left errs cnt
  match f with
  | 0 => exact Or.inl rfl
  | f + 1 => exact Or.inr rfl

theorem c1_term : ∀ f errs cnt,
    run f .termFn (c1State errs cnt) = .div ∨
    run f .termFn (c1State errs cnt) =
      .ok (.node none) (c1State (errs ++ [c1SemiErr]) (cnt + 1)) := by
  intro f errs cnt
  match f with
  | 0 => exact Or.inl rfl
  | f + 1 =>
    change bindNode (run f .factorFn (c1State errs cnt)) _ = PR.div ∨
      bindNode (run f .factorFn (c1State errs cnt)) _ =
        PR.ok (Out.node none) (c1State (errs ++ [c1SemiErr]) (cnt + 1))
    rcases c1_factor f errs cnt with hd | hd <;> rw [hd]
    · exact Or.inl rfl
    · simp only [bindNode]
      exact c1_termLoop f none (errs ++ [c1SemiErr]) (cnt + 1)

theorem c1_cmpLoop : ∀ f left errs cnt,
    run f (.cmpLoopFn left) (c1State errs cnt) = .div ∨
    run f (.cmpLoopFn left) (c1State errs cnt) =
      .ok (.node left) (c1State errs cnt) := by
  intro f left errs cnt
  match f with
  | 0 => exact Or.inl rfl
  | f + 1 => exact Or.inr rfl

theorem c1_comparison : ∀ f errs cnt,
    run f .comparisonFn (c1State errs cnt) = .div ∨
    run f .comparisonFn (c1State errs cnt) =
      .ok (.node none) (c1State (errs ++ [c1SemiErr]) (cnt + 1)) := by
  intro f errs cnt
  match f with
  | 0 => exact Or.inl rfl
  | f + 1 =>
    change bindNode (run f .termFn (c1State errs cnt)) _ = PR.div ∨
      bindNode (run f .termFn (c1State errs cnt)) _ =
        PR.ok (Out.node none) (c1State (errs ++ [c1SemiErr]) (cnt + 1))
    rcases c1_term f errs cnt with hd | hd <;> rw [hd]
    · exact Or.inl rfl
    · simp only [bindNode]
      exact c1_cmpLoop f none (errs ++ [c1SemiErr]) (cnt + 1)

theorem c1_eqLoop : ∀ f left errs cnt,
    run f (.eqLoopFn left) (c1State errs cnt) = .div ∨
    run f (.eqLoopFn left) (c1State errs cnt) =
      .ok (.node left) (c1State errs cnt) := by
  intro f left errs cnt
  match f with
  | 0 => exact Or.inl rfl
  | f + 1 => exact Or.inr rfl

theorem c1_equality : ∀ f errs cnt,
    run f .equalityFn (c1State errs cnt) = .div ∨
    run f .equalityFn (c1State errs cnt) =
      .ok (.node none) (c1State (errs ++ [c1SemiErr]) (cnt + 1)) := by
  intro f errs cnt
  match f with
  | 0 => exact Or.inl rfl
  | f + 1 =>
    change bindNode (run f .comparisonFn (c1State errs cnt)) _ = PR.div ∨
      bindNode (run f .comparisonFn (c1State errs cnt)) _ =
        PR.ok (Out.node none) (c1State (errs ++ [c1SemiErr]) (cnt + 1))
    rcases c1_comparison f errs cnt with hd | hd <;> rw [hd]
    · exact Or.inl rfl
    · simp only [bindNode]
      exact c1_eqLoop f none (errs ++ [c1SemiErr]) (cnt + 1)

theorem c1_andLoop : ∀ f left errs cnt,
    run f (.andLoopFn left) (c1State errs cnt) = .div ∨
    run f (.andLoopFn left) (c1State errs cnt) =
      .ok (.node left) (c1State errs cnt) := by
  intro f left errs cnt
  match f with
  | 0 => exact Or.inl rfl
  | f + 1 => exact Or.inr rfl

theorem c1_logicalAnd : ∀ f errs cnt,
    run f .logicalAndFn (c1State errs cnt) = .div ∨
    run f .logicalAndFn (c1State errs cnt) =
      .ok (.node none) (c1State (errs ++ [c1SemiErr]) (cnt + 1)) := by
  intro f errs cnt
  match f with
  | 0 => exact Or.inl rfl
  | f + 1 =>
    change bindNode (run f .equalityFn (c1State errs cnt)) _ = PR.div ∨
      bindNode (run f .equalityFn (c1State errs cnt)) _ =
        PR.ok (Out.node none) (c1State (errs ++ [c1SemiErr]) (cnt + 1))
    rcases c1_equality f errs cnt with hd | hd <;> rw [hd]
    · exact Or.inl rfl
    · simp only [bindNode]
      exact c1_andLoop f none (errs ++ [c1SemiErr]) (cnt + 1)

theorem c1_orLoop : ∀ f left errs cnt,
    run f (.orLoopFn left) (c1State errs cnt) = .div ∨
    run f (.orLoopFn left) (c1State errs cnt) =
      .ok (.node left) (c1State errs cnt) := by
  intro f left errs cnt
  match f with
  | 0 => exact Or.inl rfl
  | f + 1 => exact Or.inr rfl

theorem c1_logicalOr : ∀ f errs cnt,
    run f .logicalOrFn (c1State errs cnt) = .div ∨
    run f .logicalOrFn (c1State errs cnt) =
      .ok (.node none) (c1State (errs ++ [c1SemiErr]) (cnt + 1)) := by
  intro f errs cnt
  match f with
  | 0 => exact Or.inl rfl
  | f + 1 =>
    change bindNode (run f .logicalAndFn (c1State errs cnt)) _ = PR.div ∨
      bindNode (run f .logicalAndFn (c1State errs cnt)) _ =
        PR.ok (Out.node none) (c1State (errs ++ [c1SemiErr]) (cnt + 1))
    rcases c1_logicalAnd f errs cnt with hd | hd <;> rw [hd]
    · exact Or.inl rfl
    · simp only [bindNode]
      exact c1_orLoop f none (errs ++ [c1SemiErr]) (cnt + 1)

theorem c1_expression : ∀ f errs cnt,
    run f .expressionFn (c1State errs cnt) = .div ∨
    run f .expressionFn (c1State errs cnt) =
      .ok (.node none) (c1State (errs ++ [c1SemiErr]) (cnt + 1)) := by
  intro f errs cnt
  match f with
  | 0 => exact Or.inl rfl
  | f + 1 => exact c1_logicalOr f errs cnt

/-- On the semicolon, `parse_element` either exhausts its fuel or fails
without consuming any token, appending one diagnostic. -/
theorem c1_element : ∀ f errs cnt,
    run f .elementFn (c1State errs cnt) = .div ∨
    run f .elementFn (c1State errs cnt) =
      .ok (.node none) (c1State (errs ++ [c1SemiErr]) (cnt + 1)) := by
  intro f errs cnt
  match f with
  | 0 => exact Or.inl rfl
  | f + 1 => exact c1_expression f errs cnt

/-- The element-list loop of src/src/parser.c never terminates on the
semicolon: with the cursor stuck, every fuel bound is exhausted. -/
theorem c1_elemLoop : ∀ f elems errs cnt,
    run f (.elemListLoopFn elems) (c1State errs cnt) = .div := by
  intro f
  induction f with
  | zero => intro elems errs cnt; rfl
  | succ f ihL =>
    intro elems errs cnt
    change bindNode (run f .elementFn (c1State errs cnt)) _ = PR.div
    rcases c1_element f errs cnt with hd | hd <;> rw [hd]
    · rfl
    · simp only [bindNode]
      exact ihL elems (errs ++ [c1SemiErr]) (cnt + 1)

/-- Session state just after `parse_program` creates its statement array. -/
def c1P1 : Parser := ⟨c1Tokens, 0, [], ⟨[], 1⟩⟩

/-- Session state at the `parse_element_list` call inside the prompt body. -/
def c1P4 : Parser := ⟨c1Tokens, 3, [], ⟨[], 1⟩⟩

theorem c1_elementList_div : ∀ f, run f .elementListFn c1P4 = .div := by
  intro f
  match f with
  | 0 => rfl
  | f + 1 =>
    change bindNodes (run f (.elemListLoopFn []) (c1State [] 2)) _ = PR.div
    rw [c1_elemLoop f [] [] 2]
    rfl

theorem c1_promptDef_div : ∀ f, run f .promptDefFn c1P1 = .div := by
  intro f
  match f with
  | 0 => rfl
  | f + 1 =>
    change bindNode (run f .elementListFn c1P4) _ = PR.div
    rw [c1_elementList_div f]
    rfl

theorem c1_statement_div : ∀ f, run f .statementFn c1P1 = .div := by
  intro f
  match f with
  | 0 => rfl
  | f + 1 => exact c1_promptDef_div f

theorem c1_programLoop_div : ∀ f, run f (.programLoopFn []) c1P1 = .div := by
  intro f
  match f with
  | 0 => rfl
  | f + 1 =>
    change bindNode (run f .statementFn c1P1) _ = PR.div
    rw [c1_statement_div f]
    rfl

/-- C1: the claim states that parser_parse terminates on every finite
end-of-input-terminated token sequence, with element-level failures caught
by statement-level recovery.  The code refutes it: on the token sequence of
`prompt p \x7b ; \x7d`, `parse_element_list` hits the semicolon, `parse_element`
fails without consuming it, the loop checks only for brace/paren/end-of-input
and iterates again at the same cursor, so the parse exhausts every fuel
bound: `parser_parse` diverges. -/
theorem C1_element_loop_diverges :
    ∀ fuel, parser_parse fuel (parser_create c1Tokens []) = .div := by
  intro fuel
  match fuel with
  | 0 => rfl
  | f + 1 =>
    change bindNodes (run f (.programLoopFn []) c1P1) _ = PR.div
    rw [c1_programLoop_div f]
    rfl

/-- Tokens of the expression `1 + 2 * 3`. -/
def c2Tokens : List Token :=
  [mkNum 1 1 1, mkTok .ADD "+" 1 3, mkNum 2 1 5, mkTok .MUL "*" 1 7,
   mkNum 3 1 9, mkTok .EOF "" 1 10]

/-- C2: the claim states that parsing `1 + 2 * 3` yields
BinaryExpr(+, 1, BinaryExpr(*, 2, 3)).  The tree SHAPE produced by the code
is right (multiplication nests under addition), but the operator tag stored
in each node is wrong: `parse_term`/`parse_factor` read `op_token` as the
current token after `parser_match` has already consumed the operator, so
both nodes carry the tag of the right operand's first token (TOKEN_NUMBER)
and its position, not TOKEN_ADD / TOKEN_MUL. -/
theorem C2_operator_tag_corrupted :
    parse_expression 40 (parser_create c2Tokens []) =
      .ok (.node (some (.binaryExpr .NUMBER
        (some (.numberLiteral 1 ⟨1, 1, "input.pcc"⟩))
        (some (.binaryExpr .NUMBER
          (some (.numberLiteral 2 ⟨1, 5, "input.pcc"⟩))
          (some (.numberLiteral 3 ⟨1, 9, "input.pcc"⟩))
          ⟨1, 9, "input.pcc"⟩))
        ⟨1, 5, "input.pcc"⟩)))
        ⟨c2Tokens, 5, [], ⟨[], 5⟩⟩ ∧
    (TokenType.NUMBER ≠ TokenType.ADD ∧ TokenType.NUMBER ≠ TokenType.MUL) :=
  ⟨rfl, by decide⟩

/-- A single malformed statement: `;` then end of input. -/
def c3Tokens : List Token :=
  [mkTok .SEMICOLON ";" 1 1, mkTok .EOF "" 1 2]

/-- C3: the claim states that allocation failure while constructing an
error record aborts the entire parse and is never silently ignored.  The
code refutes it: `parser_error` returns without recording anything when the
error-record malloc fails (allocation index 1 here), and parsing continues;
the call then returns a normal Program with an empty diagnostics list —
indistinguishable from a clean parse. -/
theorem C3_alloc_failure_silently_ignored :
    parser_parse 20 (parser_create c3Tokens [1]) =
      .ok (.node (some (.program []))) ⟨c3Tokens, 1, [], ⟨[1], 3⟩⟩ ∧
    parser_has_errors (⟨c3Tokens, 1, [], ⟨[1], 3⟩⟩ : Parser) = false :=
  ⟨rfl, rfl⟩

/-- Tokens `var` then end of input, used to witness the consume contract. -/
def c4Tokens : List Token :=
  [mkTok .VAR "var" 1 1, mkTok .EOF "" 1 2]

/-- C4: `parser_consume(kind, message)` consumes and returns the current
token when its kind matches; otherwise it appends exactly one ParseError
carrying the message and the current token's position, returns a null
token, and leaves the cursor unchanged (so the offending token stays
current).  Stated for sessions whose next error-record allocation
succeeds, since allocation failure is a separate concern (C3). -/
theorem C4_consume_contract (p : Parser) (ty : TokenType) (msg : String) (t : Token)
    (hcur : parser_current p = some t)
    (halloc : p.alloc.failSet.contains p.alloc.count = false) :
    (t.type = ty →
      parser_consume p ty msg =
        (some t, if t.type ≠ .EOF then { p with current := p.current + 1 } else p)) ∧
    (t.type ≠ ty →
      parser_consume p ty msg =
        (none, { p with
                 errors := p.errors ++ [⟨msg, t.position⟩],
                 alloc := ⟨p.alloc.failSet, p.alloc.count + 1⟩ })) := by
  constructor
  · intro hty
    subst hty
    unfold parser_consume parser_check parser_advance
    rw [hcur]
    by_cases heof : t.type = .EOF
    · simp [heof]
    · simp [heof]
  · intro hty
    unfold parser_consume parser_check
    rw [hcur]
    rw [if_neg (by simpa using hty)]
    unfold parser_error mallocOk pcc_strdup
    rw [hcur]
    have hm : p.alloc.count ∉ p.alloc.failSet := by simpa using halloc
    simp [hm]

/-- Witness for C4 at a concrete session: consuming the matching kind VAR
succeeds and advances; consuming SEMICOLON fails, appends exactly the one
error at the current token's position, and leaves the cursor in place. -/
theorem C4_consume_contract_witness :
    (parser_consume (parser_create c4Tokens []) .VAR "m1" =
      (some (mkTok .VAR "var" 1 1),
        if (mkTok .VAR "var" 1 1).type ≠ .EOF then
          { parser_create c4Tokens [] with current := (parser_create c4Tokens []).current + 1 }
        else parser_create c4Tokens [])) ∧
    (parser_consume (parser_create c4Tokens []) .SEMICOLON "m2" =
      (none, { parser_create c4Tokens [] with
               errors := (parser_create c4Tokens []).errors ++
                 [⟨"m2", (mkTok .VAR "var" 1 1).position⟩],
               alloc := ⟨(parser_create c4Tokens []).alloc.failSet,
                         (parser_create c4Tokens []).alloc.count + 1⟩ })) :=
  ⟨(C4_consume_contract (parser_create c4Tokens []) .VAR "m1"
      (mkTok .VAR "var" 1 1) rfl rfl).1 rfl,
   (C4_consume_contract (parser_create c4Tokens []) .SEMICOLON "m2"
      (mkTok .VAR "var" 1 1) rfl rfl).2 (by decide)⟩

/-- Tokens of the expression `2 ^ 3 ^ 2`. -/
def c5Tokens : List Token :=
  [mkNum 2 1 1, mkTok .POW "^" 1 3, mkNum 3 1 5, mkTok .POW "^" 1 7,
   mkNum 2 1 9, mkTok .EOF "" 1 10]

/-- C5: parsing `2 ^ 3 ^ 2` yields BinaryExpr(^, 2, BinaryExpr(^, 3, 2)):
`parse_power` recurses into itself for its right operand, so the power
operator is right-associative and the right two operands group first (the
node positions record the token after each `^`, as the code stores them). -/
theorem C5_power_right_assoc :
    parse_expression 40 (parser_create c5Tokens []) =
      .ok (.node (some (.binaryExpr .POW
        (some (.numberLiteral 2 ⟨1, 1, "input.pcc"⟩))
        (some (.binaryExpr .POW
          (some (.numberLiteral 3 ⟨1, 5, "input.pcc"⟩))
          (some (.numberLiteral 2 ⟨1, 9, "input.pcc"⟩))
          ⟨1, 9, "input.pcc"⟩))
        ⟨1, 5, "input.pcc"⟩)))
        ⟨c5Tokens, 5, [], ⟨[], 5⟩⟩ := rfl

/-- The statement `prompt p \x7b \x7d`, whose body is an empty element list. -/
def c6Tokens : List Token :=
  [mkTok .PROMPT "prompt" 1 1, mkTok .IDENTIFIER "p" 1 8, mkTok .LBRACE "\x7b" 1 10,
   mkTok .RBRACE "\x7d" 1 11, mkTok .EOF "" 1 12]

/-- The Program produced for `prompt p \x7b \x7d`: the ElementList node carries
the fixed placeholder position 0:0. -/
def c6Prog : ASTNode :=
  .program [.promptDef "p"
    (some (.elementList [] ⟨0, 0, "<element_list>"⟩)) ⟨1, 1, "input.pcc"⟩]

/-- Counterexample to C6 as stated: even on a token sequence whose
positions are all one-based, the parser returns a Program containing an
ElementList node whose position is the placeholder 0:0 (from
`parse_element_list`), violating line ≥ 1. -/
theorem C6_counterexample :
    goodTokens c6Tokens ∧ eofTerm c6Tokens ∧
    parser_parse 30 (parser_create c6Tokens []) =
      .ok (.node (some c6Prog)) ⟨c6Tokens, 4, [], ⟨[], 5⟩⟩ ∧
    ¬ NodeOkStrict c6Prog := by
  refine ⟨by decide, by decide, rfl, ?_⟩
  intro hn
  cases hn with
  | program hstmts =>
    have hp := hstmts _ (List.mem_cons_self _ _)
    cases hp with
    | promptDef hpos hbody =>
      have hel := hbody _ rfl
      cases hel with
      | elementList hposEl hels =>
        exact absurd hposEl.1 (by decide)

/-- C6 (amended): every AST node returned by parser_parse carries a
one-based position, except the ElementList nodes (built with the fixed
0:0 placeholder) and the Program root (whose constructor takes no position
argument), provided the session is well-formed: every token position is
one-based, the sequence is end-of-input terminated, and the cursor is on a
token. -/
theorem C6_node_positions_amended :
    ∀ fuel p o p', goodState p →
    parser_parse fuel p = .ok (.node o) p' →
    ∀ n, o = some n → NodeOk n := by
  intro fuel p o p' hg h
  have hc := run_callOk fuel _ _ _ _ h hg
  exact hc

/-- Tokens used by the C6 witness: the empty program. -/
def c6wTokens : List Token := [mkTok .EOF "" 1 1]

/-- Witness for C6 (amended) at the empty program: the hypotheses hold by
computation and the returned Program root satisfies the amended predicate. -/
theorem C6_node_positions_amended_witness : NodeOk (ASTNode.program []) :=
  C6_node_positions_amended 5 (parser_create c6wTokens [])
    (some (.program [])) ⟨c6wTokens, 0, [], ⟨[], 2⟩⟩ (by decide) rfl
    (.program []) rfl

/-- The end-of-input token produced for the empty source. -/
def c7Tok : Token := ⟨.EOF, "", "", 0, ⟨1, 1, "input.pcc"⟩⟩

/-- C7: lexing the empty source yields exactly the end-of-input token (and
no diagnostics), and parsing that sequence yields a Program with zero
statements, an empty error list, and parser_has_errors false. -/
theorem C7_empty_source :
    lexer_tokenize "" "input.pcc" = ([c7Tok], []) ∧
    parser_parse 20 (parser_create [c7Tok] []) =
      .ok (.node (some (.program []))) ⟨[c7Tok], 0, [], ⟨[], 2⟩⟩ ∧
    (⟨[c7Tok], 0, [], ⟨[], 2⟩⟩ : Parser).errors = [] ∧
    parser_has_errors ⟨[c7Tok], 0, [], ⟨[], 2⟩⟩ = false :=
  ⟨rfl, rfl, rfl, rfl⟩

theorem allocNode_fst_some {n m : ASTNode} {p : Parser}
    (h : (allocNode n p).1 = some m) : m = n := by
  rcases allocNode_fst_cases n p with hc | hc <;> rw [hc] at h
  · exact (Option.some.inj h).symm
  · exact Option.noConfusion h

/-- C9: after the variable identifier, `parse_constraint_expr` accepts
exactly ==, !=, <, >, <=, >= and IN as comparison operators — every
ConstraintExpr node it builds carries one of those tags, with the IN
keyword mapped to the distinct IN_OP tag — and for any other current token
it records exactly one "Expected comparison operator" ParseError (at that
token) and returns no node. -/
theorem C9_constraint_operators :
    (∀ fuel p p' name op v pos,
      parse_constraint_expr fuel p =
        .ok (.node (some (.constraintExpr name op v pos))) p' →
      op = .EQ ∨ op = .NE ∨ op = .LT ∨ op = .GT ∨ op = .LE ∨ op = .GE ∨
        op = .IN_OP) ∧
    (∀ fuel p p' name op v pos t u,
      parser_current p = some t → t.type = .IDENTIFIER →
      parser_peek p 1 = some u → u.type = .IN →
      parse_constraint_expr fuel p =
        .ok (.node (some (.constraintExpr name op v pos))) p' →
      op = .IN_OP) ∧
    (∀ fuel p p' r t u,
      p.alloc.failSet = [] →
      parser_current p = some t → t.type = .IDENTIFIER →
      parser_peek p 1 = some u →
      u.type ≠ .EQ → u.type ≠ .NE → u.type ≠ .LT → u.type ≠ .GT →
      u.type ≠ .LE → u.type ≠ .GE → u.type ≠ .IN →
      parse_constraint_expr fuel p = .ok r p' →
      r = .node none ∧
      p'.errors = p.errors ++ [⟨"Expected comparison operator", u.position⟩]) := by
  refine ⟨?_, ?_, ?_⟩
  · intro fuel p p' name op v pos h
    cases fuel with
    | zero => exact PR.noConfusion h
    | succ fuel =>
      replace h : step (run fuel) .constraintExprFn p =
        .ok (.node (some (.constraintExpr name op v pos))) p' := h
      simp only [step] at h
      split at h
      · injection h with h1 h2
        injection h1 with h1
        exact Option.noConfusion h1
      · next tk1 p1 heq1 =>
        split at h
        · injection h with h1 h2
          injection h1 with h1
          exact Option.noConfusion h1
        · next opTok heqcur =>
          split at h
          · injection h with h1 h2
            injection h1 with h1
            exact Option.noConfusion h1
          · next opType heqop =>
            obtain ⟨v2, p3, hrun, h⟩ := bindNode_ok h
            cases v2 with
            | none =>
              injection h with h1 h2
              injection h1 with h1
              exact Option.noConfusion h1
            | some v2 =>
              injection h with h1 h2
              injection h1 with h1
              have hnode := allocNode_fst_some h1
              injection hnode with e1 e2 e3 e4
              subst e2
              cases htB : opTok.type <;> rw [htB] at heqop <;>
                first
                | (injection heqop with he; subst he; simp)
                | exact Option.noConfusion heqop
  · intro fuel p p' name op v pos t u hcur htt hpeek1 hut h
    cases fuel with
    | zero => exact PR.noConfusion h
    | succ fuel =>
      replace h : step (run fuel) .constraintExprFn p =
        .ok (.node (some (.constraintExpr name op v pos))) p' := h
      simp only [step] at h
      split at h
      · next p1 heq1 =>
        obtain ⟨-, hchk⟩ := consume_none heq1
        unfold parser_check at hchk
        simp [hcur, htt] at hchk
      · next tk1 p1 heq1 =>
        obtain ⟨hc1, -, hq1⟩ := consume_some heq1
        have hp1 : p1 = { p with current := p.current + 1 } := by
          rw [hq1]; simp [parser_advance, hcur, htt]
        have hcur1 : parser_current p1 = some u := by
          rw [hp1, parser_current_eq]; exact hpeek1
        split at h
        · next heqcur =>
          rw [hcur1] at heqcur
          exact Option.noConfusion heqcur
        · next opTok heqcur =>
          have hoptk : opTok = u := by
            rw [hcur1] at heqcur
            exact (Option.some.inj heqcur).symm
          subst hoptk
          split at h
          · next heqop =>
            rw [hut] at heqop
            exact Option.noConfusion heqop
          · next opType heqop =>
            rw [hut] at heqop
            have hopt : opType = .IN_OP := (Option.some.inj heqop).symm
            subst hopt
            obtain ⟨v2, p3, hrun, h⟩ := bindNode_ok h
            cases v2 with
            | none =>
              injection h with h1 h2
              injection h1 with h1
              exact Option.noConfusion h1
            | some v2 =>
              injection h with h1 h2
              injection h1 with h1
              have hnode := allocNode_fst_some h1
              cases hnode
              rfl
  · intro fuel p p' r t u hfs hcur htt hpeek1 hne1 hne2 hne3 hne4 hne5 hne6 hne7 h
    cases fuel with
    | zero => exact PR.noConfusion h
    | succ fuel =>
      replace h : step (run fuel) .constraintExprFn p = .ok r p' := h
      simp only [step] at h
      split at h
      · next p1 heq1 =>
        obtain ⟨-, hchk⟩ := consume_none heq1
        unfold parser_check at hchk
        simp [hcur, htt] at hchk
      · next tk1 p1 heq1 =>
        obtain ⟨hc1, -, hq1⟩ := consume_some heq1
        obtain ⟨-, herr1, hall1, -⟩ := consume_some_components heq1
        have hp1 : p1 = { p with current := p.current + 1 } := by
          rw [hq1]; simp [parser_advance, hcur, htt]
        have hcur1 : parser_current p1 = some u := by
          rw [hp1, parser_current_eq]; exact hpeek1
        split at h
        · next heqcur =>
          rw [hcur1] at heqcur
          exact Option.noConfusion heqcur
        · next opTok heqcur =>
          have hoptk : opTok = u := by
            rw [hcur1] at heqcur
            exact (Option.some.inj heqcur).symm
          subst hoptk
          split at h
          · injection h with h1 h2
            subst h1
            subst h2
            refine ⟨rfl, ?_⟩
            rw [error_append (by rw [hall1]; exact hfs), herr1]
            unfold currentPos
            rw [hcur1]
          · next opType heqop =>
            exfalso
            cases hub : opTok.type <;> rw [hub] at heqop <;>
              first
              | exact Option.noConfusion heqop
              | exact hne1 hub
              | exact hne2 hub
              | exact hne3 hub
              | exact hne4 hub
              | exact hne5 hub
              | exact hne6 hub
              | exact hne7 hub

/-- The constraint `x < 5`: the stored operator is a comparison operator. -/
def c9aTokens : List Token :=
  [mkTok .IDENTIFIER "x" 1 1, mkTok .LT "<" 1 3, mkNum 5 1 5,
   mkTok .EOF "" 1 6]

/-- The constraint `x IN 5`: the stored operator is IN_OP. -/
def c9bTokens : List Token :=
  [mkTok .IDENTIFIER "x" 1 1, mkTok .IN "IN" 1 3, mkNum 5 1 6,
   mkTok .EOF "" 1 7]

/-- The malformed constraint `x ;`: no comparison operator follows. -/
def c9cTokens : List Token :=
  [mkTok .IDENTIFIER "x" 1 1, mkTok .SEMICOLON ";" 1 3,
   mkTok .EOF "" 1 4]

/-- Witness for C9: concrete runs discharging every hypothesis of the
three parts, on the inputs `x < 5`, `x IN 5` and `x ;`. -/
theorem C9_constraint_operators_witness :
    (TokenType.LT = .EQ ∨ TokenType.LT = .NE ∨ TokenType.LT = .LT ∨
      TokenType.LT = .GT ∨ TokenType.LT = .LE ∨ TokenType.LT = .GE ∨
      TokenType.LT = .IN_OP) ∧
    TokenType.IN_OP = TokenType.IN_OP ∧
    ((Out.node (none : Option ASTNode)) = .node none ∧
      [ParseError.mk "Expected comparison operator" ⟨1, 3, "input.pcc"⟩] =
        ([] : List ParseError) ++
          [⟨"Expected comparison operator", ⟨1, 3, "input.pcc"⟩⟩]) := by
  refine ⟨?_, ?_, ?_⟩
  · exact C9_constraint_operators.1 20 ⟨c9aTokens, 0, [], ⟨[], 1⟩⟩
      ⟨c9aTokens, 3, [], ⟨[], 3⟩⟩ "x" .LT
      (.numberLiteral 5 ⟨1, 5, "input.pcc"⟩) ⟨1, 1, "input.pcc"⟩ rfl
  · exact C9_constraint_operators.2.1 20 ⟨c9bTokens, 0, [], ⟨[], 1⟩⟩
      ⟨c9bTokens, 3, [], ⟨[], 3⟩⟩ "x" .IN_OP
      (.numberLiteral 5 ⟨1, 6, "input.pcc"⟩) ⟨1, 1, "input.pcc"⟩
      (mkTok .IDENTIFIER "x" 1 1) (mkTok .IN "IN" 1 3)
      rfl rfl rfl rfl rfl
  · exact C9_constraint_operators.2.2 20 ⟨c9cTokens, 0, [], ⟨[], 1⟩⟩
      ⟨c9cTokens, 1,
        [⟨"Expected comparison operator", ⟨1, 3, "input.pcc"⟩⟩], ⟨[], 2⟩⟩
      (.node none) (mkTok .IDENTIFIER "x" 1 1) (mkTok .SEMICOLON ";" 1 3)
      rfl rfl rfl rfl
      (by decide) (by decide) (by decide) (by decide)
      (by decide) (by decide) (by decide) rfl

/-- The PROMPT statement `output r as XML;`: the parser records the
format ParseError but still returns an OutputSpec node, and that node
carries format code 0, outside {JSON, TEXT, MARKDOWN}. -/
def c8Tokens : List Token :=
  [mkTok .OUTPUT "output" 1 1, mkTok .IDENTIFIER "r" 1 8,
   mkTok .AS "as" 1 10, mkTok .IDENTIFIER "XML" 1 13,
   mkTok .SEMICOLON ";" 1 16, mkTok .EOF "" 1 17]

/-- The well-formed specification `output r as JSON;`. -/
def c8wTokens : List Token :=
  [mkTok .OUTPUT "output" 1 1, mkTok .IDENTIFIER "r" 1 8,
   mkTok .AS "as" 1 10, mkTok .IDENTIFIER "JSON" 1 13,
   mkTok .SEMICOLON ";" 1 16, mkTok .EOF "" 1 17]

/-- Counterexample to C8: on `output r as XML;` the parser does record the
"Expected format" ParseError, but it does NOT withhold the node — it
returns an OutputSpec whose format code 0 lies outside the set
{JSON = 1, TEXT = 2, MARKDOWN = 3}, refuting "a ParseError ... rather
than a node with a format outside that set". -/
theorem C8_counterexample :
    parse_output_spec 20 ⟨c8Tokens, 0, [], ⟨[], 1⟩⟩ =
      .ok (.node (some (.outputSpec "r" 0 ⟨1, 1, "input.pcc"⟩)))
        ⟨c8Tokens, 5,
          [⟨"Expected format (JSON, TEXT, or MARKDOWN)", ⟨1, 16, "input.pcc"⟩⟩],
          ⟨[], 3⟩⟩ ∧
    ¬((0 : Nat) = 1 ∨ (0 : Nat) = 2 ∨ (0 : Nat) = 3) :=
  ⟨rfl, by decide⟩

/-- C8, amended: (a) every OutputSpec node returned by `parse_output_spec`
has a format code in {0, 1, 2, 3}, where 0 marks an unrecognized format
name; (b) on `OUTPUT IDENTIFIER AS f ;` with format name f outside
{JSON, TEXT, MARKDOWN} (allocations succeeding), the parser appends
exactly one "Expected format (JSON, TEXT, or MARKDOWN)" ParseError — at
the token after the format name — AND still returns an OutputSpec node
with format code 0. -/
theorem C8_output_format_amended :
    (∀ fuel p p' name fmt pos,
      parse_output_spec fuel p =
        .ok (.node (some (.outputSpec name fmt pos))) p' →
      fmt = 0 ∨ fmt = 1 ∨ fmt = 2 ∨ fmt = 3) ∧
    (∀ fuel p p' out t0 t1 t2 t3 t4,
      p.alloc.failSet = [] →
      parser_peek p 0 = some t0 → t0.type = .OUTPUT →
      parser_peek p 1 = some t1 → t1.type = .IDENTIFIER →
      parser_peek p 2 = some t2 → t2.type = .AS →
      parser_peek p 3 = some t3 → t3.type = .IDENTIFIER →
      t3.lexeme ≠ "JSON" → t3.lexeme ≠ "TEXT" → t3.lexeme ≠ "MARKDOWN" →
      parser_peek p 4 = some t4 → t4.type = .SEMICOLON →
      parse_output_spec (fuel + 1) p = .ok out p' →
      out = .node (some (.outputSpec t1.lexeme 0 t0.position)) ∧
      p'.errors = p.errors ++
        [⟨"Expected format (JSON, TEXT, or MARKDOWN)", t4.position⟩]) := by
  constructor
  ·

    intro fuel p p' name fmt pos h
    cases fuel with
    | zero => exact PR.noConfusion h
    | succ fuel =>
      replace h : step (run fuel) .outputSpecFn p =
          .ok (.node (some (.outputSpec name fmt pos))) p' := h
      simp only [step] at h
      split at h
      · next p1 heq1 =>
        injection h with h1 h2
        injection h1 with h1
        exact Option.noConfusion h1
      · next outputTok p1 heq1 =>
        split at h
        · next p2 heq2 =>
          injection h with h1 h2
          injection h1 with h1
          exact Option.noConfusion h1
        · next nameTok p2 heq2 =>
          split at h
          · split at h
            · split at h
              · injection h with h1 h2
                injection h1 with h1
                have hnode := allocNode_fst_some h1
                cases hnode
                exact Or.inr (Or.inl rfl)
              · split at h
                · injection h with h1 h2
                  injection h1 with h1
                  have hnode := allocNode_fst_some h1
                  cases hnode
                  exact Or.inr (Or.inr (Or.inl rfl))
                · split at h
                  · injection h with h1 h2
                    injection h1 with h1
                    have hnode := allocNode_fst_some h1
                    cases hnode
                    exact Or.inr (Or.inr (Or.inr rfl))
                  · injection h with h1 h2
                    injection h1 with h1
                    have hnode := allocNode_fst_some h1
                    cases hnode
                    exact Or.inl rfl
            · injection h with h1 h2
              injection h1 with h1
              have hnode := allocNode_fst_some h1
              cases hnode
              exact Or.inl rfl
          · injection h with h1 h2
            injection h1 with h1
            have hnode := allocNode_fst_some h1
            cases hnode
            exact Or.inl rfl
  ·

    intro fuel p p' out t0 t1 t2 t3 t4 hfs hpk0 ht0 hpk1 ht1 hpk2 ht2
      hpk3 ht3 hlx1 hlx2 hlx3 hpk4 ht4 h
    have hcur0 : parser_current p = some t0 := hpk0
    replace h : step (run fuel) .outputSpecFn p = .ok out p' := h
    simp only [step] at h
    split at h
    · next p1 heq1 =>
      obtain ⟨-, hchk⟩ := consume_none heq1
      unfold parser_check at hchk
      simp [hcur0, ht0] at hchk
    · next outputTok p1 heq1 =>
      obtain ⟨hc1, -, hq1⟩ := consume_some heq1
      have houtTok : outputTok = t0 := by
        rw [hcur0] at hc1
        exact (Option.some.inj hc1).symm
      subst houtTok
      have hp1 : p1 = { p with current := p.current + 1 } := by
        rw [hq1]; simp [parser_advance, hcur0, ht0]
      subst hp1
      have hcur1 : parser_current { p with current := p.current + 1 } = some t1 := by
        rw [parser_current_eq]; exact hpk1
      split at h
      · next p2 heq2 =>
        obtain ⟨-, hchk⟩ := consume_none heq2
        unfold parser_check at hchk
        simp [hcur1, ht1] at hchk
      · next nameTok p2 heq2 =>
        obtain ⟨hc2, -, hq2⟩ := consume_some heq2
        have hnmTok : nameTok = t1 := by
          rw [hcur1] at hc2
          exact (Option.some.inj hc2).symm
        subst hnmTok
        have hp2 : p2 = { p with current := p.current + 1 + 1 } := by
          rw [hq2]; simp [parser_advance, hcur1, ht1]
        subst hp2
        have hcur2 : parser_current
            { p with current := p.current + 1 + 1 } = some t2 := by
          rw [parser_current_eq]; exact hpk2
        have hAS : parser_consume { p with current := p.current + 1 + 1 }
            .AS "Expected AS keyword" =
            (some t2, { p with current := p.current + 1 + 1 + 1 }) := by
          simp [parser_consume, parser_check, parser_advance, hcur2, ht2]
        have hAS2 : (parser_consume { p with current := p.current + 1 + 1 }
            .AS "Expected AS keyword").2 =
            { p with current := p.current + 1 + 1 + 1 } := by
          rw [hAS]
        rw [hAS2] at h
        have hcur3 : parser_current
            { p with current := p.current + 1 + 1 + 1 } = some t3 := by
          rw [parser_current_eq]; exact hpk3
        have hM : parser_match { p with current := p.current + 1 + 1 + 1 }
            .IDENTIFIER =
            (true, { p with current := p.current + 1 + 1 + 1 + 1 }) := by
          simp [parser_match, parser_check, parser_advance, hcur3, ht3]
        have hM1 : (parser_match { p with current := p.current + 1 + 1 + 1 }
            .IDENTIFIER).1 = true := by rw [hM]
        have hM2 : (parser_match { p with current := p.current + 1 + 1 + 1 }
            .IDENTIFIER).2 =
            { p with current := p.current + 1 + 1 + 1 + 1 } := by rw [hM]
        split at h
        · next hb =>
          split at h
          · next ft heqft =>
            have hft : ft = t3 := by
              rw [hcur3] at heqft
              exact (Option.some.inj heqft).symm
            subst hft
            rw [if_neg hlx1, if_neg hlx2, if_neg hlx3] at h
            rw [hM2] at h
            dsimp only at h
            have hcur4 : parser_current
                { p with current := p.current + 1 + 1 + 1 + 1 } = some t4 := by
              rw [parser_current_eq]; exact hpk4
            have hE : parser_error { p with current := p.current + 1 + 1 + 1 + 1 }
                "Expected format (JSON, TEXT, or MARKDOWN)" =
                { tokens := p.tokens, current := p.current + 1 + 1 + 1 + 1,
                  errors := p.errors ++
                    [⟨"Expected format (JSON, TEXT, or MARKDOWN)", t4.position⟩],
                  alloc := { failSet := [], count := p.alloc.count + 1 } } := by
              simp [parser_error, mallocOk, hfs, pcc_strdup, hcur4]
            rw [hE] at h
            have hcur5 : parser_current
                { tokens := p.tokens, current := p.current + 1 + 1 + 1 + 1,
                  errors := p.errors ++
                    [⟨"Expected format (JSON, TEXT, or MARKDOWN)", t4.position⟩],
                  alloc := ({ failSet := [], count := p.alloc.count + 1 } :
                    AllocState) } = some t4 := by
              rw [parser_current_eq]; exact hpk4
            have hS : parser_consume
                { tokens := p.tokens, current := p.current + 1 + 1 + 1 + 1,
                  errors := p.errors ++
                    [⟨"Expected format (JSON, TEXT, or MARKDOWN)", t4.position⟩],
                  alloc := ({ failSet := [], count := p.alloc.count + 1 } :
                    AllocState) }
                .SEMICOLON "Expected \x27;\x27 after output specification" =
                (some t4,
                  { tokens := p.tokens, current := p.current + 1 + 1 + 1 + 1 + 1,
                    errors := p.errors ++
                      [⟨"Expected format (JSON, TEXT, or MARKDOWN)", t4.position⟩],
                    alloc := { failSet := [], count := p.alloc.count + 1 } }) := by
              simp [parser_consume, parser_check, parser_advance, hcur5, ht4]
            have hS2 : (parser_consume
                { tokens := p.tokens, current := p.current + 1 + 1 + 1 + 1,
                  errors := p.errors ++
                    [⟨"Expected format (JSON, TEXT, or MARKDOWN)", t4.position⟩],
                  alloc := ({ failSet := [], count := p.alloc.count + 1 } :
                    AllocState) }
                .SEMICOLON "Expected \x27;\x27 after output specification").2 =
                { tokens := p.tokens, current := p.current + 1 + 1 + 1 + 1 + 1,
                  errors := p.errors ++
                    [⟨"Expected format (JSON, TEXT, or MARKDOWN)", t4.position⟩],
                  alloc := { failSet := [], count := p.alloc.count + 1 } } := by
              rw [hS]
            rw [hS2] at h
            have hA1 : (ast_output_spec_create nameTok.lexeme 0 outputTok.position
                { tokens := p.tokens, current := p.current + 1 + 1 + 1 + 1 + 1,
                  errors := p.errors ++
                    [⟨"Expected format (JSON, TEXT, or MARKDOWN)", t4.position⟩],
                  alloc := ({ failSet := [], count := p.alloc.count + 1 } :
                    AllocState) }).1 =
                some (.outputSpec nameTok.lexeme 0 outputTok.position) :=
              allocNode_fst_ok _ rfl
            rw [hA1] at h
            injection h with h1 h2
            exact ⟨h1.symm, by rw [← h2]; rfl⟩
          · next heqft =>
            rw [hcur3] at heqft
            exact Option.noConfusion heqft
        · next hb =>
          exact absurd hM1 hb

/-- Witness for the amended C8: part (a) applied to the run on
`output r as JSON;` (format code 1) and part (b) applied to the run on
`output r as XML;`, discharging every hypothesis. -/
theorem C8_output_format_amended_witness :
    ((1 : Nat) = 0 ∨ (1 : Nat) = 1 ∨ (1 : Nat) = 2 ∨ (1 : Nat) = 3) ∧
    ((Out.node (some (.outputSpec "r" 0 ⟨1, 1, "input.pcc"⟩))) =
        .node (some (.outputSpec "r" 0 ⟨1, 1, "input.pcc"⟩)) ∧
      [ParseError.mk "Expected format (JSON, TEXT, or MARKDOWN)"
          ⟨1, 16, "input.pcc"⟩] =
        ([] : List ParseError) ++
          [⟨"Expected format (JSON, TEXT, or MARKDOWN)",
            ⟨1, 16, "input.pcc"⟩⟩]) := by
  constructor
  · exact C8_output_format_amended.1 20 ⟨c8wTokens, 0, [], ⟨[], 1⟩⟩
      ⟨c8wTokens, 5, [], ⟨[], 2⟩⟩ "r" 1 ⟨1, 1, "input.pcc"⟩ rfl
  · exact C8_output_format_amended.2 19 ⟨c8Tokens, 0, [], ⟨[], 1⟩⟩
      ⟨c8Tokens, 5,
        [⟨"Expected format (JSON, TEXT, or MARKDOWN)", ⟨1, 16, "input.pcc"⟩⟩],
        ⟨[], 3⟩⟩
      (.node (some (.outputSpec "r" 0 ⟨1, 1, "input.pcc"⟩)))
      (mkTok .OUTPUT "output" 1 1) (mkTok .IDENTIFIER "r" 1 8)
      (mkTok .AS "as" 1 10) (mkTok .IDENTIFIER "XML" 1 13)
      (mkTok .SEMICOLON ";" 1 16)
      rfl rfl rfl rfl rfl rfl rfl rfl rfl
      (by decide) (by decide) (by decide)
      rfl rfl rfl

/-- The statement `let x = 5;`, parsed with allocation number 2 — the
VarDecl node, not any error record — failing. -/
def c10Tokens : List Token :=
  [mkTok .VAR "let" 1 1, mkTok .IDENTIFIER "x" 1 5,
   mkTok .ASSIGN "=" 1 7, mkNum 5 1 9,
   mkTok .SEMICOLON ";" 1 10, mkTok .EOF "" 1 11]

/-- The lone `;`, a malformed statement on which `parse_statement` records
"Expected statement" (all allocations succeeding). -/
def c10wTokens : List Token :=
  [mkTok .SEMICOLON ";" 1 1, mkTok .EOF "" 1 2]

/-- Counterexample to C10: on `let x = 5;` with only allocation number 2
(the VarDecl AST node — no error record is ever allocated in this run)
failing, `parse_statement` returns no node without appending any
ParseError, the resulting Program omits the declaration, and
`parser_has_errors` is false after `parser_parse`. -/
theorem C10_counterexample :
    parse_statement 20 ⟨c10Tokens, 0, [], ⟨[2], 1⟩⟩ =
      .ok (.node none) ⟨c10Tokens, 5, [], ⟨[2], 3⟩⟩ ∧
    parser_parse 30 (parser_create c10Tokens [2]) =
      .ok (.node (some (.program []))) ⟨c10Tokens, 5, [], ⟨[2], 4⟩⟩ ∧
    parser_has_errors ⟨c10Tokens, 5, [], ⟨[2], 4⟩⟩ = false :=
  ⟨rfl, rfl, rfl⟩

/-- C10, amended: assuming EVERY allocation succeeds (not only the
error-record ones): (1) whenever `parse_statement` starts at an existing
token and returns no node, it has strictly grown the error list; (2) every
phase of the parse only appends to the error list; (3) `parser_has_errors`
holds exactly when the error list is nonempty — so a dropped statement
leaves `parser_has_errors` true after `parser_parse`. -/
theorem C10_missing_statement_amended :
    (∀ fuel p p' t, p.alloc.failSet = [] →
      parser_current p = some t →
      parse_statement fuel p = .ok (.node none) p' →
      p.errors.length < p'.errors.length) ∧
    (∀ fuel c p r q, run fuel c p = .ok r q →
      ∃ t, q.errors = p.errors ++ t) ∧
    (∀ p, parser_has_errors p = true ↔ p.errors ≠ []) := by
  refine ⟨statement_none_appends, ?_, ?_⟩
  · intro fuel c p r q h
    exact (run_pres fuel c p r q h).2.2.1
  · intro p
    unfold parser_has_errors
    cases p.errors with
    | nil => simp
    | cons e es => simp

/-- Witness for the amended C10: part (1) on the lone `;` (the recorded
"Expected statement" error), part (2) on the full parse of that input,
part (3) at its final state. -/
theorem C10_missing_statement_amended_witness :
    ([] : List ParseError).length <
      [ParseError.mk "Expected statement" ⟨1, 1, "input.pcc"⟩].length ∧
    (∃ t, [ParseError.mk "Expected statement" ⟨1, 1, "input.pcc"⟩] =
      ([] : List ParseError) ++ t) ∧
    (parser_has_errors ⟨c10Tokens, 5, [], ⟨[2], 4⟩⟩ = true ↔
      ([] : List ParseError) ≠ []) := by
  refine ⟨?_, ?_, ?_⟩
  · exact C10_missing_statement_amended.1 20 ⟨c10wTokens, 0, [], ⟨[], 0⟩⟩
      ⟨c10wTokens, 0,
        [⟨"Expected statement", ⟨1, 1, "input.pcc"⟩⟩], ⟨[], 1⟩⟩
      (mkTok .SEMICOLON ";" 1 1) rfl rfl rfl
  · exact C10_missing_statement_amended.2.1 30 .programFn
      (parser_create c10wTokens []) (.node (some (.program [])))
      ⟨c10wTokens, 1,
        [⟨"Expected statement", ⟨1, 1, "input.pcc"⟩⟩], ⟨[], 3⟩⟩ rfl
  · exact C10_missing_statement_amended.2.2 ⟨c10Tokens, 5, [], ⟨[2], 4⟩⟩
